import Mathlib

/-! Taiga `track/media_stream.cpp`: browser title detection

A shallow embedding of `src/track/media_stream.cpp`:

* `FindAccessibleChild`: the recursive search over the accessibility tree;
* `GetTitleFromStreamingMediaProvider`: provider detection from the URL and
  clean-up of the window title;
* `GetTitleFromBrowser`: same-page early return, throttle counter, engine
  selection, "check other tabs" and "find URL".

`std::wstring` is `List Char`.  The `static int counter` of
`GetTitleFromBrowser` is threaded explicitly: the function takes the value the
counter has on entry and returns the value it has on exit.  A call ends in an
`Outcome`: a returned value, or the `std::out_of_range` of `std::vector::at`.
The helpers of `base/string.h` (`IsEqual`, `InStr`, `EraseLeft`, `EraseRight`,
`Erase`) are not part of the file; `IsEqual` is a parameter, the others are
modelled.
-/

/-- The type `std::wstring`. -/
abbrev WString := List Char

/-! ## Enumerations -/

/-- Enumerator `kStreamUnknown` of `StreamingVideoProviders`. -/
def kStreamUnknown : Int := -1
/-- Enumerator `kStreamAnn`. -/
def kStreamAnn : Int := 0
/-- Enumerator `kStreamCrunchyroll`. -/
def kStreamCrunchyroll : Int := 1
/-- Enumerator `kStreamHulu`. -/
def kStreamHulu : Int := 2
/-- Enumerator `kStreamVeoh`. -/
def kStreamVeoh : Int := 3
/-- Enumerator `kStreamVizanime`. -/
def kStreamVizanime : Int := 4
/-- Enumerator `kStreamYoutube`. -/
def kStreamYoutube : Int := 5

/-- Enumerator `kWebEngineUnknown` of `WebBrowserEngines`. -/
def kWebEngineUnknown : Int := -1
/-- Enumerator `kWebEngineWebkit`. -/
def kWebEngineWebkit : Int := 0
/-- Enumerator `kWebEngineGecko`. -/
def kWebEngineGecko : Int := 1
/-- Enumerator `kWebEngineTrident`. -/
def kWebEngineTrident : Int := 2
/-- Enumerator `kWebEnginePresto`. -/
def kWebEnginePresto : Int := 3

/-! ## Data model -/

/-- The type `base::AccessibleChild`: a node of the accessibility tree with its
`name`, `role`, `value` and its `children` in stored order. -/
inductive AccessibleChild where
  | mk (name role value : WString) (children : List AccessibleChild)

namespace AccessibleChild

/-- Field `name`. -/
def name : AccessibleChild → WString
  | mk n _ _ _ => n

/-- Field `role`. -/
def role : AccessibleChild → WString
  | mk _ r _ _ => r

/-- Field `value`. -/
def value : AccessibleChild → WString
  | mk _ _ v _ => v

/-- Field `children`. -/
def children : AccessibleChild → List AccessibleChild
  | mk _ _ _ cs => cs

end AccessibleChild

/-- How a call ends: it returns a value, or a checked access `std::vector::at`
throws `std::out_of_range`, which nothing in the file catches. -/
inductive Outcome (α : Type) where
  | returned (value : α)
  | out_of_range
  deriving DecidableEq

/-- The checked access `v.at(i)` of `std::vector`. -/
def vector_at {α : Type} (v : List α) (i : Nat) : Outcome α :=
  match v[i]? with
  | some x => .returned x
  | none => .out_of_range

/-- The five settings read through `Settings.GetBool(taiga::kStream_*)`. -/
structure StreamSettings where
  kStream_Ann : Bool
  kStream_Crunchyroll : Bool
  kStream_Veoh : Bool
  kStream_Viz : Bool
  kStream_Youtube : Bool

/-- What `GetTitleFromBrowser` reads from its environment in one call. -/
structure BrowserInput where
  /-- The string `media_player->engine` of the current player. -/
  engine : WString
  /-- The window title after `EditTitle`. -/
  title : WString
  /-- The value `CurrentEpisode.anime_id`. -/
  anime_id : Int
  /-- The value `current_title()`. -/
  current_title : WString
  /-- The forest `acc_obj.children` once the accessibility data is built. -/
  children : List AccessibleChild

/-! ## String helpers of `base/string.h` -/

/-- Modelled from the spec: `IsEqual` of `base/string.h` is not part of the
source file; the spec calls it case-insensitive equality "per the comparison the
platform defines".  Every definition below takes the comparison as a parameter;
this ASCII instance is the one concrete evaluations use. -/
def IsEqualAscii (str1 str2 : WString) : Bool :=
  str1.map Char.toLower == str2.map Char.toLower

/-- Scan of `InStr`: `pos` is the index of the head of the remaining text. -/
def InStr.scan (str2 : WString) : WString → Nat → Int
  | [], pos => if str2.isEmpty then (pos : Int) else -1
  | c :: cs, pos =>
    if str2.isPrefixOf (c :: cs) then (pos : Int) else InStr.scan str2 cs (pos + 1)

/-- Modelled from the spec: `InStr` of `base/string.h` is not part of the source
file; the spec reads `InStr(a, b) > -1` as "b occurs in a as a substring".  The
model returns the index of the first occurrence of `str2` in `str1`, and `-1`
when there is none. -/
def InStr (str1 str2 : WString) : Int :=
  InStr.scan str2 str1 0

/-- Modelled from the spec: `EraseLeft` of `base/string.h` is not part of the
source file; the spec's StripPrefix "removes the literal only if it occurs at
the very start". -/
def EraseLeft (str1 str2 : WString) : WString :=
  if str2.isPrefixOf str1 then str1.drop str2.length else str1

/-- Modelled from the spec: `EraseRight` of `base/string.h` is not part of the
source file; the spec's StripSuffix "removes the literal only if it occurs at
the very end". -/
def EraseRight (str1 str2 : WString) : WString :=
  if str2.isSuffixOf str1 then str1.take (str1.length - str2.length) else str1

/-- Scan of `Erase` for a nonempty literal `str2`: `skip` counts the characters
of an occurrence under removal that are still to be dropped. -/
def Erase.scan (str2 : WString) : Nat → WString → WString
  | _, [] => []
  | skip + 1, _ :: cs => Erase.scan str2 skip cs
  | 0, c :: cs =>
    if str2.isPrefixOf (c :: cs) then Erase.scan str2 (str2.length - 1) cs
    else c :: Erase.scan str2 0 cs

/-- Modelled from the spec: `Erase` of `base/string.h` is not part of the source
file; the spec says the literal is "removed wherever found".  The model scans
left to right, drops the literal wherever the remaining text starts with it and
goes on behind it; an empty literal removes nothing. -/
def Erase (str1 str2 : WString) : WString :=
  if str2.isEmpty then str1 else Erase.scan str2 0 str1

/-! ## `FindAccessibleChild` -/

mutual
/-- One iteration of the `foreach_` loop of `FindAccessibleChild` on the element
`it`, entered with `child == nullptr`: the test of `it` itself, then the descent
into `it->children`.  The value is `child` as the `if (child) break;` sees it. -/
def FindAccessibleChild.iteration (IsEqual : WString → WString → Bool) :
    AccessibleChild → WString → WString → Option AccessibleChild
  | .mk n r v cs, name, role =>
    let child : Option AccessibleChild :=
      if name.isEmpty || IsEqual name n then
        if role.isEmpty || IsEqual role r then some (.mk n r v cs) else none
      else none
    if child.isNone && !cs.isEmpty then FindAccessibleChild IsEqual cs name role else child
termination_by structural it => it
/-- The function `FindAccessibleChild(children, name, role)`; `none` is
`nullptr`, `some c` is a pointer to the node `c`. -/
def FindAccessibleChild (IsEqual : WString → WString → Bool) :
    List AccessibleChild → WString → WString → Option AccessibleChild
  | [], _, _ => none
  | it :: rest, name, role =>
    let child := FindAccessibleChild.iteration IsEqual it name role
    if child.isSome then child else FindAccessibleChild IsEqual rest name role
termination_by structural children => children
end

/-! ## `AllowChildTraverse` -/

/-- The function
`MediaPlayers::BrowserAccessibleObject::AllowChildTraverse(child, param)`: the
`switch (param)` over the enumerators of `WebBrowserEngines`; `param` is the
`LPARAM` the caller passes. -/
def AllowChildTraverse (IsEqual : WString → WString → Bool) (child : AccessibleChild)
    (param : Int) : Bool :=
  if param = kWebEngineUnknown then
    false
  else if param = kWebEngineGecko then
    if IsEqual child.role "document".toList then false else true
  else if param = kWebEngineTrident then
    if IsEqual child.role "pane".toList || IsEqual child.role "scroll bar".toList then false
    else true
  else if param = kWebEnginePresto then
    if IsEqual child.role "document".toList || IsEqual child.role "pane".toList then false
    else true
  else
    true

/-! ## `GetTitleFromStreamingMediaProvider` -/

/-- First half of `GetTitleFromStreamingMediaProvider` ("Check URL for known
streaming video providers"): the value of the local `stream_provider` when the
`switch` is reached.  The Hulu test is commented out in the source. -/
def GetTitleFromStreamingMediaProvider.stream_provider
    (Settings : StreamSettings) (url : WString) : Int :=
  if !url.isEmpty then
    if Settings.kStream_Ann && decide (InStr url "animenewsnetwork.com/video".toList > -1) then
      kStreamAnn
    else if Settings.kStream_Crunchyroll && decide (InStr url "crunchyroll.com/".toList > -1) then
      kStreamCrunchyroll
    else if Settings.kStream_Veoh && decide (InStr url "veoh.com/watch".toList > -1) then
      kStreamVeoh
    else if Settings.kStream_Viz && decide (InStr url "vizanime.com/ep".toList > -1) then
      kStreamVizanime
    else if Settings.kStream_Youtube && decide (InStr url "youtube.com/watch".toList > -1) then
      kStreamYoutube
    else kStreamUnknown
  else kStreamUnknown

/-- Second half of `GetTitleFromStreamingMediaProvider` ("Clean-up title"): the
`switch (stream_provider)`, with the Hulu case the source still has. -/
def GetTitleFromStreamingMediaProvider.clean_up (stream_provider : Int) (title : WString) :
    WString :=
  if stream_provider = kStreamAnn then
    let title := EraseRight title " - Anime News Network".toList
    let title := Erase title " (s)".toList
    Erase title " (d)".toList
  else if stream_provider = kStreamCrunchyroll then
    EraseLeft title "Crunchyroll - Watch ".toList
  else if stream_provider = kStreamHulu then
    let title := EraseLeft title "Watch ".toList
    let title := EraseRight title " online | Free | Hulu".toList
    EraseRight title " online | Plus | Hulu".toList
  else if stream_provider = kStreamVeoh then
    let title := EraseLeft title "Watch Videos Online | ".toList
    EraseRight title " | Veoh.com".toList
  else if stream_provider = kStreamVizanime then
    EraseRight title " - VIZ ANIME: Free Online Anime - All The Time".toList
  else if stream_provider = kStreamYoutube then
    EraseRight title " - YouTube".toList
  else
    []

/-- The function `MediaPlayers::GetTitleFromStreamingMediaProvider(url, title)`. -/
def GetTitleFromStreamingMediaProvider (Settings : StreamSettings) (url title : WString) :
    WString :=
  GetTitleFromStreamingMediaProvider.clean_up
    (GetTitleFromStreamingMediaProvider.stream_provider Settings url) title

/-! ## `GetTitleFromBrowser` -/

/-- The block "Check other tabs" of `GetTitleFromBrowser`, entered when
`CurrentEpisode.anime_id > 0`: the value the function returns from there. -/
def GetTitleFromBrowser.check_other_tabs (IsEqual : WString → WString → Bool)
    (web_engine : Int) (children : List AccessibleChild) (current_title : WString) : WString :=
  let child : Option AccessibleChild :=
    if web_engine = kWebEngineWebkit ∨ web_engine = kWebEngineGecko then
      FindAccessibleChild IsEqual children [] "page tab list".toList
    else if web_engine = kWebEngineTrident then
      FindAccessibleChild IsEqual children "Tab Row".toList []
    else if web_engine = kWebEnginePresto then
      FindAccessibleChild IsEqual children [] "client".toList
    else none
  match child with
  | some c =>
    if c.children.any (fun it => decide (InStr it.name current_title > -1)) then current_title
    else []
  | none => []

/-- The Presto case of the `switch` of "Find URL": the chained descent, with the
checked access `child->children.at(0)`. -/
def GetTitleFromBrowser.find_url_presto (IsEqual : WString → WString → Bool)
    (children : List AccessibleChild) : Outcome (Option AccessibleChild) :=
  let child := FindAccessibleChild IsEqual children [] "client".toList
  match child with
  | none => .returned child
  | some client =>
    if !client.children.isEmpty then
      match vector_at client.children 0 with
      | .out_of_range => .out_of_range
      | .returned first =>
        let child := FindAccessibleChild IsEqual first.children [] "tool bar".toList
        match child with
        | none => .returned child
        | some tool_bar =>
          if !tool_bar.children.isEmpty then
            let child := FindAccessibleChild IsEqual tool_bar.children [] "combo box".toList
            match child with
            | none => .returned child
            | some combo_box =>
              if !combo_box.children.isEmpty then
                .returned
                  (FindAccessibleChild IsEqual combo_box.children [] "editable text".toList)
              else .returned child
          else .returned child
    else .returned child

/-- The `switch (web_engine)` of the block "Find URL": the value of `child`
behind it. -/
def GetTitleFromBrowser.find_url (IsEqual : WString → WString → Bool)
    (web_engine : Int) (children : List AccessibleChild) : Outcome (Option AccessibleChild) :=
  if web_engine = kWebEngineWebkit then
    let child := FindAccessibleChild IsEqual children
      "Address and search bar".toList "grouping".toList
    let child := if child.isNone then
      FindAccessibleChild IsEqual children "Address".toList "grouping".toList else child
    let child := if child.isNone then
      FindAccessibleChild IsEqual children "Location".toList "grouping".toList else child
    .returned (if child.isNone then
      FindAccessibleChild IsEqual children "Address field".toList "editable text".toList
      else child)
  else if web_engine = kWebEngineGecko then
    let child := FindAccessibleChild IsEqual children
      "Search or enter address".toList "editable text".toList
    let child := if child.isNone then
      FindAccessibleChild IsEqual children "Go to a Website".toList "editable text".toList
      else child
    .returned (if child.isNone then
      FindAccessibleChild IsEqual children "Go to a Web Site".toList "editable text".toList
      else child)
  else if web_engine = kWebEngineTrident then
    let child := FindAccessibleChild IsEqual children
      "Address and search using Bing".toList "editable text".toList
    .returned (if child.isNone then
      FindAccessibleChild IsEqual children
        "Address and search using Google".toList "editable text".toList
      else child)
  else if web_engine = kWebEnginePresto then
    GetTitleFromBrowser.find_url_presto IsEqual children
  else .returned none

/-- The part of `GetTitleFromBrowser` behind the engine selection: "Check other
tabs" when an episode is tracked, else "Find URL" and the hand-over of the
found node's `value` to `GetTitleFromStreamingMediaProvider`. -/
def GetTitleFromBrowser.inspect (IsEqual : WString → WString → Bool) (Settings : StreamSettings)
    (web_engine : Int) (inp : BrowserInput) : Outcome WString :=
  if inp.anime_id > 0 then
    .returned
      (GetTitleFromBrowser.check_other_tabs IsEqual web_engine inp.children inp.current_title)
  else
    match GetTitleFromBrowser.find_url IsEqual web_engine inp.children with
    | .out_of_range => .out_of_range
    | .returned (some child) =>
      .returned (GetTitleFromStreamingMediaProvider Settings child.value inp.title)
    | .returned none => .returned []

/-- The function `MediaPlayers::GetTitleFromBrowser(hwnd)`.  `counter` is the
value of the `static int counter` on entry; the result is how the call ends (the
returned string, or the exception) and the value of the counter on exit. -/
def GetTitleFromBrowser (IsEqual : WString → WString → Bool) (Settings : StreamSettings)
    (counter : Int) (inp : BrowserInput) : Outcome WString × Int :=
  -- Return current title if the same web page is still open
  if inp.anime_id > 0 ∧ InStr inp.title inp.current_title > -1 then
    (.returned inp.current_title, counter)
  -- Delay operation to save some CPU
  else if counter < 5 then
    (.returned inp.current_title, counter + 1)
  -- Select web browser engine
  else if inp.engine = "WebKit".toList then
    (GetTitleFromBrowser.inspect IsEqual Settings kWebEngineWebkit inp, 0)
  else if inp.engine = "Gecko".toList then
    (GetTitleFromBrowser.inspect IsEqual Settings kWebEngineGecko inp, 0)
  else if inp.engine = "Trident".toList then
    (GetTitleFromBrowser.inspect IsEqual Settings kWebEngineTrident inp, 0)
  else if inp.engine = "Presto".toList then
    (GetTitleFromBrowser.inspect IsEqual Settings kWebEnginePresto inp, 0)
  else
    (.returned [], 0)

/-! ## Sequences of calls -/

/-- A sequence of calls of `GetTitleFromBrowser`: the counter left by one call is
the counter the next call finds.  The value is the list of the calls' outcomes. -/
def GetTitleFromBrowser.calls (IsEqual : WString → WString → Bool) (Settings : StreamSettings) :
    Int → List BrowserInput → List (Outcome WString)
  | _, [] => []
  | counter, inp :: rest =>
    (GetTitleFromBrowser IsEqual Settings counter inp).1 ::
      GetTitleFromBrowser.calls IsEqual Settings
        (GetTitleFromBrowser IsEqual Settings counter inp).2 rest

/-- The counter after a sequence of calls of `GetTitleFromBrowser` that starts
with the given counter. -/
def GetTitleFromBrowser.counter_after (IsEqual : WString → WString → Bool)
    (Settings : StreamSettings) : Int → List BrowserInput → Int
  | counter, [] => counter
  | counter, inp :: rest =>
    GetTitleFromBrowser.counter_after IsEqual Settings
      (GetTitleFromBrowser IsEqual Settings counter inp).2 rest

/-- The part of `GetTitleFromBrowser` behind the throttle: the engine selection
and, for a recognised engine, the inspection of the accessibility tree. -/
def GetTitleFromBrowser.behind_throttle (IsEqual : WString → WString → Bool)
    (Settings : StreamSettings) (inp : BrowserInput) : Outcome WString :=
  if inp.engine = "WebKit".toList then
    GetTitleFromBrowser.inspect IsEqual Settings kWebEngineWebkit inp
  else if inp.engine = "Gecko".toList then
    GetTitleFromBrowser.inspect IsEqual Settings kWebEngineGecko inp
  else if inp.engine = "Trident".toList then
    GetTitleFromBrowser.inspect IsEqual Settings kWebEngineTrident inp
  else if inp.engine = "Presto".toList then
    GetTitleFromBrowser.inspect IsEqual Settings kWebEnginePresto inp
  else
    .returned []

/-- The test of the same-page early return fails: the call gets as far as the
throttle. -/
def GetTitleFromBrowser.reaches_throttle (inp : BrowserInput) : Bool :=
  !(decide (inp.anime_id > 0) && decide (InStr inp.title inp.current_title > -1))

/-! ## Specification-side notions -/

/-- The match rule of the spec for a probe `(name, role)`: `name` is empty or
equal to the node's name, and `role` is empty or equal to the node's role, both
under the comparison `IsEqual`. -/
def MatchRule (IsEqual : WString → WString → Bool) (name role : WString)
    (c : AccessibleChild) : Bool :=
  (name.isEmpty || IsEqual name c.name) && (role.isEmpty || IsEqual role c.role)

mutual
/-- Pre-order flattening of one tree: the node, then its children's trees. -/
def preorder.tree : AccessibleChild → List AccessibleChild
  | .mk n r v cs => .mk n r v cs :: preorder cs
termination_by structural c => c
/-- Pre-order flattening of a forest: parent before its children, children in
stored order, trees in stored order. -/
def preorder : List AccessibleChild → List AccessibleChild
  | [] => []
  | c :: rest => preorder.tree c ++ preorder rest
termination_by structural cs => cs
end

/-- The tab-container probe `(name, role)` the spec lists for each supported
engine: WebKit and Gecko share `("", "page tab list")`, Trident uses
`("Tab Row", "")`, Presto uses `("", "client")`; no probe for any other engine. -/
def Spec.tab_container_probe (engine : WString) : Option (WString × WString) :=
  if engine = "WebKit".toList ∨ engine = "Gecko".toList then some ([], "page tab list".toList)
  else if engine = "Trident".toList then some ("Tab Row".toList, [])
  else if engine = "Presto".toList then some ([], "client".toList)
  else none

/-- The spec's condition for "the session is still open": the probe finds a
container and a direct child of that container has a name that contains the
tracked title as a substring. -/
def Spec.tab_still_open (IsEqual : WString → WString → Bool) (probe : WString × WString)
    (children : List AccessibleChild) (trackedTitle : WString) : Prop :=
  ∃ container, FindAccessibleChild IsEqual children probe.1 probe.2 = some container ∧
    ∃ it ∈ container.children, trackedTitle <:+: it.name

/-- The address-bar probe tables of the spec, in priority order, for the three
engines whose discovery is table-driven. -/
def Spec.url_probes (engine : WString) : List (WString × WString) :=
  if engine = "WebKit".toList then
    [("Address and search bar".toList, "grouping".toList),
     ("Address".toList, "grouping".toList),
     ("Location".toList, "grouping".toList),
     ("Address field".toList, "editable text".toList)]
  else if engine = "Gecko".toList then
    [("Search or enter address".toList, "editable text".toList),
     ("Go to a Website".toList, "editable text".toList),
     ("Go to a Web Site".toList, "editable text".toList)]
  else if engine = "Trident".toList then
    [("Address and search using Bing".toList, "editable text".toList),
     ("Address and search using Google".toList, "editable text".toList)]
  else []

/-- The node found by the first probe of the list, in list order, that finds any
node; `none` when no probe of the list finds one. -/
def Spec.first_hit (IsEqual : WString → WString → Bool) (children : List AccessibleChild) :
    List (WString × WString) → Option AccessibleChild
  | [] => none
  | probe :: probes =>
    match FindAccessibleChild IsEqual children probe.1 probe.2 with
    | some node => some node
    | none => Spec.first_hit IsEqual children probes

/-- A search step of the Presto descent finds nothing: there is no "client"
node; or the client has a first child and there is no "tool bar" beneath that
child; or the tool bar found has children and there is no "combo box" among
their trees; or the combo box found has children and there is no "editable
text" among their trees. -/
def Spec.presto_search_fails (IsEqual : WString → WString → Bool)
    (children : List AccessibleChild) : Prop :=
  FindAccessibleChild IsEqual children [] "client".toList = none ∨
  ∃ client first rest,
    FindAccessibleChild IsEqual children [] "client".toList = some client ∧
    client.children = first :: rest ∧
    (FindAccessibleChild IsEqual first.children [] "tool bar".toList = none ∨
     ∃ tool_bar,
      FindAccessibleChild IsEqual first.children [] "tool bar".toList = some tool_bar ∧
      tool_bar.children ≠ [] ∧
      (FindAccessibleChild IsEqual tool_bar.children [] "combo box".toList = none ∨
       ∃ combo_box,
        FindAccessibleChild IsEqual tool_bar.children [] "combo box".toList = some combo_box ∧
        combo_box.children ≠ [] ∧
        FindAccessibleChild IsEqual combo_box.children [] "editable text".toList = none))

/-- The provider table of the spec in its fixed order: identifier, enabled flag,
required substring of the URL. -/
def Spec.provider_table (Settings : StreamSettings) : List (Int × Bool × WString) :=
  [(kStreamAnn, Settings.kStream_Ann, "animenewsnetwork.com/video".toList),
   (kStreamCrunchyroll, Settings.kStream_Crunchyroll, "crunchyroll.com/".toList),
   (kStreamVeoh, Settings.kStream_Veoh, "veoh.com/watch".toList),
   (kStreamVizanime, Settings.kStream_Viz, "vizanime.com/ep".toList),
   (kStreamYoutube, Settings.kStream_Youtube, "youtube.com/watch".toList)]

/-- The provider the spec selects: the first entry of the table whose flag is
true and whose required substring occurs anywhere in `url`; `kStreamUnknown`
when there is no such entry. -/
def Spec.select_provider (Settings : StreamSettings) (url : WString) : Int :=
  match (Spec.provider_table Settings).find? (fun e => e.2.1 && decide (e.2.2 <:+: url)) with
  | some e => e.1
  | none => kStreamUnknown

/-- The kinds of strip rule of the spec's provider table: StripPrefix
(`leading`), StripSuffix (`trailing`), and the unanchored erasure of the
AnimeNewsNetwork row (`anywhere`). -/
inductive Spec.StripKind where
  | leading
  | trailing
  | anywhere
  deriving DecidableEq

/-- The strip rules of the spec's provider table, in table order. -/
def Spec.strip_rules (provider : Int) : List (Spec.StripKind × WString) :=
  if provider = kStreamAnn then
    [(.trailing, " - Anime News Network".toList), (.anywhere, " (s)".toList),
     (.anywhere, " (d)".toList)]
  else if provider = kStreamCrunchyroll then
    [(.leading, "Crunchyroll - Watch ".toList)]
  else if provider = kStreamVeoh then
    [(.leading, "Watch Videos Online | ".toList), (.trailing, " | Veoh.com".toList)]
  else if provider = kStreamVizanime then
    [(.trailing, " - VIZ ANIME: Free Online Anime - All The Time".toList)]
  else if provider = kStreamYoutube then
    [(.trailing, " - YouTube".toList)]
  else []

/-- One strip rule applied to a title. -/
def Spec.apply_rule (rule : Spec.StripKind × WString) (title : WString) : WString :=
  match rule.1 with
  | .leading => EraseLeft title rule.2
  | .trailing => EraseRight title rule.2
  | .anywhere => Erase title rule.2

/-- The rules of a list applied one after the other, in list order. -/
def Spec.apply_rules : List (Spec.StripKind × WString) → WString → WString
  | [], title => title
  | rule :: rules, title => Spec.apply_rules rules (Spec.apply_rule rule title)

/-- A rule applies to a title when its literal stands where the rule looks for
it: at the very start, at the very end, or anywhere. -/
def Spec.rule_applies (rule : Spec.StripKind × WString) (title : WString) : Prop :=
  match rule.1 with
  | .leading => rule.2 <+: title
  | .trailing => rule.2 <:+ title
  | .anywhere => rule.2 <:+: title

mutual
/-- One tree with every `value` field emptied. -/
def Spec.erase_values.tree : AccessibleChild → AccessibleChild
  | .mk n r _ cs => .mk n r [] (Spec.erase_values cs)
termination_by structural c => c
/-- A forest with every `value` field emptied: two forests differ only in their
nodes' `value` fields exactly when this gives the same forest for both. -/
def Spec.erase_values : List AccessibleChild → List AccessibleChild
  | [] => []
  | c :: rest => Spec.erase_values.tree c :: Spec.erase_values rest
termination_by structural cs => cs
end

/-- The session-confirm outcome the spec describes for a tab-container probe:
the tracked title when the probe finds a container with a direct child whose
name contains the tracked title, else empty. -/
def Spec.session_confirm (IsEqual : WString → WString → Bool) (probe : WString × WString)
    (children : List AccessibleChild) (trackedTitle : WString) : WString :=
  match FindAccessibleChild IsEqual children probe.1 probe.2 with
  | some container =>
    if container.children.any (fun it => decide (trackedTitle <:+: it.name)) then trackedTitle
    else []
  | none => []

/-! ## Example inputs -/

/-- A browser window whose tab list holds one tab named
"My Show - Episode 3 - Crunchyroll". -/
def Example.tabs_open : List AccessibleChild :=
  [.mk "Browser".toList "window".toList []
    [.mk [] "tool bar".toList [] [],
     .mk [] "page tab list".toList []
      [.mk "My Show - Episode 3 - Crunchyroll".toList "page tab".toList [] []]]]

/-- The window of `Example.tabs_open` with the tab removed. -/
def Example.tabs_closed : List AccessibleChild :=
  [.mk "Browser".toList "window".toList []
    [.mk [] "tool bar".toList [] [],
     .mk [] "page tab list".toList [] []]]

/-- The tracked episode of the examples: "My Show - Episode 3", seen in a WebKit
browser whose active window shows another page. -/
def Example.session (children : List AccessibleChild) : BrowserInput where
  engine := "WebKit".toList
  title := "New Tab".toList
  anime_id := 1
  current_title := "My Show - Episode 3".toList
  children := children

/-- All five providers enabled. -/
def Example.all_enabled : StreamSettings where
  kStream_Ann := true
  kStream_Crunchyroll := true
  kStream_Veoh := true
  kStream_Viz := true
  kStream_Youtube := true

/-- A WebKit window in which an "Address field" node of a lower-priority probe
comes before the "Address" grouping in document order. -/
def Example.discovery : BrowserInput where
  engine := "WebKit".toList
  title := "Crunchyroll - Watch My Show Episode 3".toList
  anime_id := 0
  current_title := []
  children :=
    [.mk "Address field".toList "editable text".toList
        "https://www.youtube.com/watch?v=1".toList [],
     .mk "Browser".toList "window".toList []
      [.mk "Address".toList "grouping".toList
        "https://www.crunchyroll.com/my-show-ep-3".toList []]]

/-- A Presto window: no episode tracked, YouTube's page title, and the given
accessibility forest. -/
def Example.presto (children : List AccessibleChild) : BrowserInput where
  engine := "Presto".toList
  title := "My Show - YouTube".toList
  anime_id := 0
  current_title := []
  children := children

/-- A forest whose only node is a "client" node without children that carries a
YouTube address as its `value`. -/
def Example.childless_client : List AccessibleChild :=
  [.mk [] "client".toList "https://www.youtube.com/watch?v=1".toList []]

/-- A forest whose "client" node has a first child with a "pane" but no "tool
bar" beneath it. -/
def Example.client_without_tool_bar : List AccessibleChild :=
  [.mk [] "client".toList "https://www.youtube.com/watch?v=1".toList
    [.mk [] "window".toList [] [.mk [] "pane".toList [] []]]]

/-- The window of `Example.tabs_open` with other `value` fields: the tab list
carries a Crunchyroll address and the window a title. -/
def Example.tabs_open_other_values : List AccessibleChild :=
  [.mk "Browser".toList "window".toList "Main".toList
    [.mk [] "tool bar".toList [] [],
     .mk [] "page tab list".toList "https://www.crunchyroll.com/my-show-ep-3".toList
      [.mk "My Show - Episode 3 - Crunchyroll".toList "page tab".toList "1".toList []]]]

/-- All five providers disabled. -/
def Example.none_enabled : StreamSettings where
  kStream_Ann := false
  kStream_Crunchyroll := false
  kStream_Veoh := false
  kStream_Viz := false
  kStream_Youtube := false

/-- A player whose engine is none of the four, with a tracked episode whose
title is still part of the window title. -/
def Example.unknown_engine : BrowserInput where
  engine := "Blink".toList
  title := "My Show - Episode 3 - Crunchyroll - Some Browser".toList
  anime_id := 1
  current_title := "My Show - Episode 3".toList
  children := []

/-! ## The string helpers -/

theorem InStr.scan_nonneg_iff (str2 : WString) : ∀ (str1 : WString) (pos : Nat),
    InStr.scan str2 str1 pos > -1 ↔ str2 <:+: str1
  | [], pos => by
    cases str2 <;> simp [InStr.scan]
    omega
  | c :: cs, pos => by
    have ih := InStr.scan_nonneg_iff str2 cs (pos + 1)
    rw [InStr.scan, List.infix_cons_iff]
    by_cases h : str2.isPrefixOf (c :: cs) = true
    · have hp : str2 <+: c :: cs := List.isPrefixOf_iff_prefix.mp h
      simp only [h, if_true]
      constructor
      · intro _; exact Or.inl hp
      · intro _; omega
    · have hp : ¬ str2 <+: c :: cs := fun hp => h (List.isPrefixOf_iff_prefix.mpr hp)
      simp only [h, if_false, Bool.false_eq_true]
      rw [ih]
      constructor
      · intro hi; exact Or.inr hi
      · rintro (hi | hi)
        · exact absurd hi hp
        · exact hi

/-- The model of `InStr` finds `str2` exactly when it is a contiguous substring
of `str1`. -/
theorem InStr_found_iff (str1 str2 : WString) : InStr str1 str2 > -1 ↔ str2 <:+: str1 :=
  InStr.scan_nonneg_iff str2 str1 0

theorem EraseLeft_anchored (str2 rest : WString) : EraseLeft (str2 ++ rest) str2 = rest := by
  have h : str2.isPrefixOf (str2 ++ rest) = true :=
    List.isPrefixOf_iff_prefix.mpr (List.prefix_append str2 rest)
  simp [EraseLeft, h]

theorem EraseLeft_unanchored (str1 str2 : WString) (h : ¬ str2 <+: str1) :
    EraseLeft str1 str2 = str1 := by
  have h' : ¬ str2.isPrefixOf str1 = true := fun hp => h (List.isPrefixOf_iff_prefix.mp hp)
  simp [EraseLeft, h']

theorem EraseLeft_length_le (str1 str2 : WString) :
    (EraseLeft str1 str2).length ≤ str1.length := by
  unfold EraseLeft
  split
  · simp
  · exact Nat.le_refl _

theorem EraseLeft_length_lt (str1 str2 : WString) (hne : str2 ≠ []) (h : str2 <+: str1) :
    (EraseLeft str1 str2).length < str1.length := by
  obtain ⟨rest, rfl⟩ := h
  rw [EraseLeft_anchored]
  have : 0 < str2.length := List.length_pos.mpr hne
  simp only [List.length_append]
  omega

theorem EraseRight_anchored (str2 rest : WString) : EraseRight (rest ++ str2) str2 = rest := by
  have h : str2.isSuffixOf (rest ++ str2) = true :=
    List.isSuffixOf_iff_suffix.mpr (List.suffix_append rest str2)
  simp [EraseRight, h]

theorem EraseRight_unanchored (str1 str2 : WString) (h : ¬ str2 <:+ str1) :
    EraseRight str1 str2 = str1 := by
  have h' : ¬ str2.isSuffixOf str1 = true := fun hp => h (List.isSuffixOf_iff_suffix.mp hp)
  simp [EraseRight, h']

theorem EraseRight_length_le (str1 str2 : WString) :
    (EraseRight str1 str2).length ≤ str1.length := by
  unfold EraseRight
  split
  · simp
  · exact Nat.le_refl _

theorem EraseRight_length_lt (str1 str2 : WString) (hne : str2 ≠ []) (h : str2 <:+ str1) :
    (EraseRight str1 str2).length < str1.length := by
  obtain ⟨rest, rfl⟩ := h
  rw [EraseRight_anchored]
  have : 0 < str2.length := List.length_pos.mpr hne
  simp only [List.length_append]
  omega

theorem Erase.scan_length_le (str2 : WString) : ∀ (str1 : WString) (skip : Nat),
    (Erase.scan str2 skip str1).length ≤ str1.length
  | [], skip => by cases skip <;> simp [Erase.scan]
  | c :: cs, 0 => by
    have ih1 := Erase.scan_length_le str2 cs (str2.length - 1)
    have ih2 := Erase.scan_length_le str2 cs 0
    rw [Erase.scan]
    split
    · simp only [List.length_cons]; omega
    · simp only [List.length_cons]; omega
  | c :: cs, skip + 1 => by
    have ih := Erase.scan_length_le str2 cs skip
    rw [Erase.scan]
    simp only [List.length_cons]; omega

theorem Erase.scan_absent (str2 : WString) : ∀ (str1 : WString), ¬ str2 <:+: str1 →
    Erase.scan str2 0 str1 = str1
  | [], _ => by simp [Erase.scan]
  | c :: cs, h => by
    rw [List.infix_cons_iff, not_or] at h
    have hp : ¬ str2.isPrefixOf (c :: cs) = true :=
      fun hp => h.1 (List.isPrefixOf_iff_prefix.mp hp)
    rw [Erase.scan, if_neg hp, Erase.scan_absent str2 cs h.2]

theorem Erase.scan_length_lt (str2 : WString) : ∀ (str1 : WString), str2 <:+: str1 →
    str1 ≠ [] → (Erase.scan str2 0 str1).length < str1.length
  | [], _, hne => absurd rfl hne
  | c :: cs, h, _ => by
    rw [Erase.scan]
    by_cases hp : str2.isPrefixOf (c :: cs) = true
    · have := Erase.scan_length_le str2 cs (str2.length - 1)
      rw [if_pos hp]
      simp only [List.length_cons]; omega
    · have hp' : ¬ str2 <+: c :: cs := fun hq => hp (List.isPrefixOf_iff_prefix.mpr hq)
      rw [List.infix_cons_iff] at h
      have hin : str2 <:+: cs := h.resolve_left hp'
      have hcs : cs ≠ [] := by
        rintro rfl
        have h2 : str2 = [] := List.eq_nil_of_infix_nil hin
        exact hp' (h2 ▸ List.nil_prefix)
      have := Erase.scan_length_lt str2 cs hin hcs
      rw [if_neg hp]
      simp only [List.length_cons]; omega

theorem Erase_absent (str1 str2 : WString) (h : ¬ str2 <:+: str1) : Erase str1 str2 = str1 := by
  unfold Erase
  split
  · rfl
  · exact Erase.scan_absent str2 str1 h

theorem Erase_length_le (str1 str2 : WString) : (Erase str1 str2).length ≤ str1.length := by
  unfold Erase
  split
  · exact Nat.le_refl _
  · exact Erase.scan_length_le str2 str1 0

theorem Erase_length_lt (str1 str2 : WString) (hne : str2 ≠ []) (h : str2 <:+: str1) :
    (Erase str1 str2).length < str1.length := by
  have h1 : str1 ≠ [] := by
    rintro rfl
    exact hne (List.eq_nil_of_infix_nil h)
  have h2 : ¬ str2.isEmpty = true := by simpa using hne
  unfold Erase
  rw [if_neg h2]
  exact Erase.scan_length_lt str2 str1 h h1

/-! ## Tree search -/

mutual
theorem FindAccessibleChild.iteration_eq_find (IsEqual : WString → WString → Bool)
    (name role : WString) : ∀ c : AccessibleChild,
    FindAccessibleChild.iteration IsEqual c name role
      = (preorder.tree c).find? (MatchRule IsEqual name role)
  | .mk n r v cs => by
    have ih := FindAccessibleChild.eq_find IsEqual name role cs
    have hchild : (if name.isEmpty || IsEqual name n then
          if role.isEmpty || IsEqual role r then some (AccessibleChild.mk n r v cs) else none
        else none)
        = if MatchRule IsEqual name role (.mk n r v cs) then some (.mk n r v cs) else none := by
      simp only [MatchRule, AccessibleChild.name, AccessibleChild.role]
      by_cases h1 : (name.isEmpty || IsEqual name n) = true <;>
        by_cases h2 : (role.isEmpty || IsEqual role r) = true <;> simp [h1, h2]
    rw [FindAccessibleChild.iteration, preorder.tree, List.find?_cons]
    simp only [hchild]
    cases hm : MatchRule IsEqual name role (.mk n r v cs)
    · cases cs with
      | nil => simp [preorder]
      | cons c cs => simpa using ih
    · simp
theorem FindAccessibleChild.eq_find (IsEqual : WString → WString → Bool)
    (name role : WString) : ∀ children : List AccessibleChild,
    FindAccessibleChild IsEqual children name role
      = (preorder children).find? (MatchRule IsEqual name role)
  | [] => by simp [FindAccessibleChild, preorder]
  | it :: rest => by
    have ih1 := FindAccessibleChild.iteration_eq_find IsEqual name role it
    have ih2 := FindAccessibleChild.eq_find IsEqual name role rest
    rw [FindAccessibleChild, preorder, List.find?_append, ih1, ih2]
    cases h : List.find? (MatchRule IsEqual name role) (preorder.tree it) <;> simp
end

/-- C1: for every forest and every probe `(name, role)`, `FindAccessibleChild`
returns the first node of the pre-order flattening of the forest that satisfies
the match rule, and `nullptr` (`none`) exactly when the flattening has no such
node. -/
theorem FindAccessibleChild_first_preorder_match (IsEqual : WString → WString → Bool)
    (children : List AccessibleChild) (name role : WString) :
    FindAccessibleChild IsEqual children name role
        = (preorder children).find? (MatchRule IsEqual name role)
      ∧ (FindAccessibleChild IsEqual children name role = none
          ↔ ∀ c ∈ preorder children, MatchRule IsEqual name role c = false) := by
  refine ⟨FindAccessibleChild.eq_find IsEqual name role children, ?_⟩
  rw [FindAccessibleChild.eq_find, List.find?_eq_none]
  simp

/-! ## Session-confirm mode ("Check other tabs") -/

theorem GetTitleFromBrowser.check_other_tabs_eq (IsEqual : WString → WString → Bool)
    (web_engine : Int) (children : List AccessibleChild) (current_title : WString)
    (probe : WString × WString)
    (hchild : (if web_engine = kWebEngineWebkit ∨ web_engine = kWebEngineGecko then
        FindAccessibleChild IsEqual children [] "page tab list".toList
      else if web_engine = kWebEngineTrident then
        FindAccessibleChild IsEqual children "Tab Row".toList []
      else if web_engine = kWebEnginePresto then
        FindAccessibleChild IsEqual children [] "client".toList
      else none) = FindAccessibleChild IsEqual children probe.1 probe.2) :
    (Spec.tab_still_open IsEqual probe children current_title →
        GetTitleFromBrowser.check_other_tabs IsEqual web_engine children current_title
          = current_title) ∧
    (¬ Spec.tab_still_open IsEqual probe children current_title →
        GetTitleFromBrowser.check_other_tabs IsEqual web_engine children current_title = []) := by
  unfold GetTitleFromBrowser.check_other_tabs Spec.tab_still_open
  simp only [hchild]
  cases FindAccessibleChild IsEqual children probe.1 probe.2 with
  | none => simp
  | some c =>
    simp only [List.any_eq_true, decide_eq_true_eq, InStr_found_iff, Option.some.injEq,
      exists_eq_left']
    constructor
    · intro h; rw [if_pos h]
    · intro h; rw [if_neg h]

/-- Behind the early return and the throttle, with an episode tracked and a
supported engine, the result is decided by the spec's "still open" condition. -/
theorem GetTitleFromBrowser.session_confirm_eq (IsEqual : WString → WString → Bool)
    (Settings : StreamSettings) (counter : Int) (inp : BrowserInput) (probe : WString × WString)
    (hprobe : Spec.tab_container_probe inp.engine = some probe)
    (hid : inp.anime_id > 0)
    (hsame : ¬ InStr inp.title inp.current_title > -1)
    (hcnt : ¬ counter < 5) :
    (Spec.tab_still_open IsEqual probe inp.children inp.current_title →
        (GetTitleFromBrowser IsEqual Settings counter inp).1 = .returned inp.current_title) ∧
    (¬ Spec.tab_still_open IsEqual probe inp.children inp.current_title →
        (GetTitleFromBrowser IsEqual Settings counter inp).1 = .returned []) := by
  have hret : ∀ (a b : WString), (Outcome.returned a = Outcome.returned b) = (a = b) := by
    intro a b
    simp
  unfold GetTitleFromBrowser GetTitleFromBrowser.inspect
  unfold Spec.tab_container_probe at hprobe
  simp only [hsame, and_false, if_false, hcnt, hid, if_true]
  by_cases hw : inp.engine = "WebKit".toList
  · simp only [hw, true_or, if_true, Option.some.injEq] at hprobe ⊢
    subst hprobe
    simp only [hret]
    exact GetTitleFromBrowser.check_other_tabs_eq IsEqual _ _ _ _ rfl
  · simp only [hw, if_false, false_or] at hprobe ⊢
    by_cases hg : inp.engine = "Gecko".toList
    · simp only [hg, if_true, Option.some.injEq] at hprobe ⊢
      subst hprobe
      simp only [hret]
      exact GetTitleFromBrowser.check_other_tabs_eq IsEqual _ _ _ _ rfl
    · simp only [hg, if_false] at hprobe ⊢
      by_cases ht : inp.engine = "Trident".toList
      · simp only [ht, if_true, Option.some.injEq] at hprobe ⊢
        subst hprobe
        simp only [hret]
        exact GetTitleFromBrowser.check_other_tabs_eq IsEqual _ _ _ _ rfl
      · simp only [ht, if_false] at hprobe ⊢
        by_cases hp : inp.engine = "Presto".toList
        · simp only [hp, if_true, Option.some.injEq] at hprobe ⊢
          subst hprobe
          simp only [hret]
          exact GetTitleFromBrowser.check_other_tabs_eq IsEqual _ _ _ _ rfl
        · simp only [hp, if_false] at hprobe
          cases hprobe

/-- C2: in session-confirm mode (an episode is tracked with a nonempty title, the
engine is supported, and the call gets behind the same-page early return and the
throttle), the result is the tracked title if and only if the engine's
tab-container probe finds a node and a direct child of that node has a name
containing the tracked title as a substring; in every other case the result is
empty. -/
theorem GetTitleFromBrowser_session_confirm (IsEqual : WString → WString → Bool)
    (Settings : StreamSettings) (counter : Int) (inp : BrowserInput) (probe : WString × WString)
    (hprobe : Spec.tab_container_probe inp.engine = some probe)
    (hid : inp.anime_id > 0)
    (hne : inp.current_title ≠ [])
    (hsame : ¬ InStr inp.title inp.current_title > -1)
    (hcnt : ¬ counter < 5) :
    ((GetTitleFromBrowser IsEqual Settings counter inp).1 = .returned inp.current_title
        ↔ Spec.tab_still_open IsEqual probe inp.children inp.current_title) ∧
    (¬ Spec.tab_still_open IsEqual probe inp.children inp.current_title →
        (GetTitleFromBrowser IsEqual Settings counter inp).1 = .returned []) := by
  obtain ⟨hopen, hclosed⟩ :=
    GetTitleFromBrowser.session_confirm_eq IsEqual Settings counter inp probe hprobe hid hsame hcnt
  refine ⟨⟨fun hres => ?_, hopen⟩, hclosed⟩
  by_contra hno
  have h := hres.symm.trans (hclosed hno)
  exact hne (Outcome.returned.inj h)

/-- Witness for C2 on the spec's example: with the tab child present the result
is the tracked title. -/
theorem GetTitleFromBrowser_session_confirm_witness :
    (GetTitleFromBrowser IsEqualAscii Example.all_enabled 5
        (Example.session Example.tabs_open)).1
      = .returned "My Show - Episode 3".toList :=
  (GetTitleFromBrowser_session_confirm IsEqualAscii Example.all_enabled 5
      (Example.session Example.tabs_open) ([], "page tab list".toList)
      (by decide) (by decide) (by decide) (by decide) (by decide)).1.mpr
    ⟨.mk [] "page tab list".toList []
        [.mk "My Show - Episode 3 - Crunchyroll".toList "page tab".toList [] []],
      rfl, _, List.mem_singleton.mpr rfl,
      ⟨[], " - Crunchyroll".toList, rfl⟩⟩

/-- The spec's example with the tab child removed: the result is empty. -/
theorem GetTitleFromBrowser_session_closed_example :
    (GetTitleFromBrowser IsEqualAscii Example.all_enabled 5
        (Example.session Example.tabs_closed)).1 = .returned [] := by
  decide

/-! ## Discovery mode ("Find URL") -/

theorem GetTitleFromBrowser.find_url_webkit (IsEqual : WString → WString → Bool)
    (children : List AccessibleChild) :
    GetTitleFromBrowser.find_url IsEqual kWebEngineWebkit children
      = .returned (Spec.first_hit IsEqual children (Spec.url_probes "WebKit".toList)) := by
  have hp : Spec.url_probes "WebKit".toList
      = [("Address and search bar".toList, "grouping".toList),
         ("Address".toList, "grouping".toList),
         ("Location".toList, "grouping".toList),
         ("Address field".toList, "editable text".toList)] := rfl
  have he : (kWebEngineWebkit = kWebEngineWebkit) = True := eq_self _
  rw [hp]
  simp only [GetTitleFromBrowser.find_url, Spec.first_hit, he, if_true]
  cases FindAccessibleChild IsEqual children "Address and search bar".toList "grouping".toList <;>
    cases FindAccessibleChild IsEqual children "Address".toList "grouping".toList <;>
    cases FindAccessibleChild IsEqual children "Location".toList "grouping".toList <;>
    cases FindAccessibleChild IsEqual children "Address field".toList "editable text".toList <;>
    rfl

theorem GetTitleFromBrowser.find_url_gecko (IsEqual : WString → WString → Bool)
    (children : List AccessibleChild) :
    GetTitleFromBrowser.find_url IsEqual kWebEngineGecko children
      = .returned (Spec.first_hit IsEqual children (Spec.url_probes "Gecko".toList)) := by
  have hp : Spec.url_probes "Gecko".toList
      = [("Search or enter address".toList, "editable text".toList),
         ("Go to a Website".toList, "editable text".toList),
         ("Go to a Web Site".toList, "editable text".toList)] := rfl
  have h0 : (kWebEngineGecko = kWebEngineWebkit) = False := eq_false (by decide)
  have he : (kWebEngineGecko = kWebEngineGecko) = True := eq_self _
  rw [hp]
  simp only [GetTitleFromBrowser.find_url, Spec.first_hit, h0, he, if_true, if_false]
  cases FindAccessibleChild IsEqual children "Search or enter address".toList
      "editable text".toList <;>
    cases FindAccessibleChild IsEqual children "Go to a Website".toList "editable text".toList <;>
    cases FindAccessibleChild IsEqual children "Go to a Web Site".toList "editable text".toList <;>
    rfl

theorem GetTitleFromBrowser.find_url_trident (IsEqual : WString → WString → Bool)
    (children : List AccessibleChild) :
    GetTitleFromBrowser.find_url IsEqual kWebEngineTrident children
      = .returned (Spec.first_hit IsEqual children (Spec.url_probes "Trident".toList)) := by
  have hp : Spec.url_probes "Trident".toList
      = [("Address and search using Bing".toList, "editable text".toList),
         ("Address and search using Google".toList, "editable text".toList)] := rfl
  have h0 : (kWebEngineTrident = kWebEngineWebkit) = False := eq_false (by decide)
  have h1 : (kWebEngineTrident = kWebEngineGecko) = False := eq_false (by decide)
  have he : (kWebEngineTrident = kWebEngineTrident) = True := eq_self _
  rw [hp]
  simp only [GetTitleFromBrowser.find_url, Spec.first_hit, h0, h1, he, if_true, if_false]
  cases FindAccessibleChild IsEqual children "Address and search using Bing".toList
      "editable text".toList <;>
    cases FindAccessibleChild IsEqual children "Address and search using Google".toList
      "editable text".toList <;>
    rfl

/-- In discovery mode (no episode tracked) and behind the throttle, the call ends
as "Find URL" for the selected engine does. -/
theorem GetTitleFromBrowser.discovery_eq (IsEqual : WString → WString → Bool)
    (Settings : StreamSettings) (counter : Int) (inp : BrowserInput)
    (hid : ¬ inp.anime_id > 0) (hcnt : ¬ counter < 5) (web_engine : Int)
    (hsel : (inp.engine = "WebKit".toList ∧ web_engine = kWebEngineWebkit) ∨
      (inp.engine = "Gecko".toList ∧ web_engine = kWebEngineGecko) ∨
      (inp.engine = "Trident".toList ∧ web_engine = kWebEngineTrident) ∨
      (inp.engine = "Presto".toList ∧ web_engine = kWebEnginePresto)) :
    (GetTitleFromBrowser IsEqual Settings counter inp).1
      = match GetTitleFromBrowser.find_url IsEqual web_engine inp.children with
        | .out_of_range => .out_of_range
        | .returned (some child) =>
          .returned (GetTitleFromStreamingMediaProvider Settings child.value inp.title)
        | .returned none => .returned [] := by
  have hg : ¬ ("Gecko".toList = "WebKit".toList) := by decide
  have ht : ¬ ("Trident".toList = "WebKit".toList) := by decide
  have ht' : ¬ ("Trident".toList = "Gecko".toList) := by decide
  have hp : ¬ ("Presto".toList = "WebKit".toList) := by decide
  have hp' : ¬ ("Presto".toList = "Gecko".toList) := by decide
  have hp'' : ¬ ("Presto".toList = "Trident".toList) := by decide
  unfold GetTitleFromBrowser GetTitleFromBrowser.inspect
  simp only [hid, false_and, if_false, hcnt]
  rcases hsel with ⟨he, hw⟩ | ⟨he, hw⟩ | ⟨he, hw⟩ | ⟨he, hw⟩ <;> subst hw <;>
    simp only [he, hg, ht, ht', hp, hp', hp'', if_true, if_false]

/-- C3: in discovery mode (no episode tracked, the call gets behind the
throttle), for each of WebKit, Gecko and Trident the result is the clean-up of
the window title for the `value` of the node found by the first probe of the
engine's table, in priority order, that finds any node, and empty when no probe
of the table finds a node. -/
theorem GetTitleFromBrowser_discovery_first_probe (IsEqual : WString → WString → Bool)
    (Settings : StreamSettings) (counter : Int) (inp : BrowserInput)
    (hengine : inp.engine = "WebKit".toList ∨ inp.engine = "Gecko".toList ∨
      inp.engine = "Trident".toList)
    (hid : ¬ inp.anime_id > 0) (hcnt : ¬ counter < 5) :
    (GetTitleFromBrowser IsEqual Settings counter inp).1
      = .returned
        (match Spec.first_hit IsEqual inp.children (Spec.url_probes inp.engine) with
          | some node => GetTitleFromStreamingMediaProvider Settings node.value inp.title
          | none => []) := by
  rcases hengine with he | he | he
  · rw [GetTitleFromBrowser.discovery_eq IsEqual Settings counter inp hid hcnt kWebEngineWebkit
      (Or.inl ⟨he, rfl⟩), GetTitleFromBrowser.find_url_webkit, he]
    cases Spec.first_hit IsEqual inp.children (Spec.url_probes "WebKit".toList) <;> rfl
  · rw [GetTitleFromBrowser.discovery_eq IsEqual Settings counter inp hid hcnt kWebEngineGecko
      (Or.inr (Or.inl ⟨he, rfl⟩)), GetTitleFromBrowser.find_url_gecko, he]
    cases Spec.first_hit IsEqual inp.children (Spec.url_probes "Gecko".toList) <;> rfl
  · rw [GetTitleFromBrowser.discovery_eq IsEqual Settings counter inp hid hcnt kWebEngineTrident
      (Or.inr (Or.inr (Or.inl ⟨he, rfl⟩))), GetTitleFromBrowser.find_url_trident, he]
    cases Spec.first_hit IsEqual inp.children (Spec.url_probes "Trident".toList) <;> rfl

/-- Witness for C3: the "Address" grouping wins over the "Address field" node
that precedes it in document order, and its `value`, not its name, selects the
provider. -/
theorem GetTitleFromBrowser_discovery_first_probe_witness :
    (GetTitleFromBrowser IsEqualAscii Example.all_enabled 5 Example.discovery).1
      = .returned "My Show Episode 3".toList :=
  (GetTitleFromBrowser_discovery_first_probe IsEqualAscii Example.all_enabled 5
    Example.discovery (Or.inl rfl) (by decide) (by decide)).trans (by decide)

/-! ## The Presto descent -/

/-- The checked access of the Presto descent is never out of range. -/
theorem GetTitleFromBrowser.find_url_presto_in_range (IsEqual : WString → WString → Bool)
    (children : List AccessibleChild) :
    GetTitleFromBrowser.find_url_presto IsEqual children ≠ .out_of_range := by
  have hmk : ∀ (n r v : WString) (cs : List AccessibleChild),
      (AccessibleChild.mk n r v cs).children = cs := fun _ _ _ _ => rfl
  unfold GetTitleFromBrowser.find_url_presto
  cases FindAccessibleChild IsEqual children [] "client".toList with
  | none => simp
  | some client =>
    obtain ⟨n, r, v, cs⟩ := client
    cases cs with
    | nil => simp [hmk]
    | cons first rest =>
      simp only [hmk, vector_at, List.isEmpty_cons, Bool.not_false, if_true,
        List.getElem?_cons_zero]
      cases FindAccessibleChild IsEqual first.children [] "tool bar".toList with
      | none => simp
      | some tool_bar =>
        simp only
        split
        · cases FindAccessibleChild IsEqual tool_bar.children [] "combo box".toList with
          | none => simp
          | some combo_box =>
            simp only
            split <;> simp
        · simp

/-- When a search step of the Presto descent finds nothing, `child` ends as
`nullptr`. -/
theorem GetTitleFromBrowser.find_url_presto_fails (IsEqual : WString → WString → Bool)
    (children : List AccessibleChild) (h : Spec.presto_search_fails IsEqual children) :
    GetTitleFromBrowser.find_url_presto IsEqual children = .returned none := by
  unfold GetTitleFromBrowser.find_url_presto
  rcases h with h | ⟨client, first, rest, hc, hcs, h⟩
  · simp only [h]
  · simp only [hc, hcs, vector_at, List.isEmpty_cons, Bool.not_false, if_true,
      List.getElem?_cons_zero]
    rcases h with h | ⟨tool_bar, htb, htbc, h⟩
    · simp only [h]
    · have htbc' : (!tool_bar.children.isEmpty) = true := by
        simpa [List.isEmpty_iff] using htbc
      simp only [htb, htbc', if_true]
      rcases h with h | ⟨combo_box, hcb, hcbc, h⟩
      · simp only [h]
      · have hcbc' : (!combo_box.children.isEmpty) = true := by
          simpa [List.isEmpty_iff] using hcbc
        simp only [hcb, hcbc', if_true, h]

/-- C4 (counterexample): Presto, no episode tracked, the throttle passed, and a
forest whose only node is a childless "client" node.  The step "first child's
tool bar" is missing, yet the result is "My Show", not the empty string: the
`value` of the client node is handed to the clean-up. -/
theorem GetTitleFromBrowser_presto_childless_client :
    FindAccessibleChild IsEqualAscii Example.childless_client [] "client".toList
      = some (.mk [] "client".toList "https://www.youtube.com/watch?v=1".toList []) ∧
    (GetTitleFromBrowser IsEqualAscii Example.all_enabled 5
        (Example.presto Example.childless_client)).1 = .returned "My Show".toList ∧
    (GetTitleFromBrowser IsEqualAscii Example.all_enabled 5
        (Example.presto Example.childless_client)).1 ≠ .returned [] := by
  refine ⟨rfl, ?_, ?_⟩ <;> decide

/-- C4 (amended): in discovery mode with Presto (no episode tracked, the call
gets behind the throttle), for every tree shape the call returns, no checked
child access being out of range, and whenever a search step of the chained
descent finds nothing the result is the empty string. -/
theorem GetTitleFromBrowser_presto_search_fails (IsEqual : WString → WString → Bool)
    (Settings : StreamSettings) (counter : Int) (inp : BrowserInput)
    (hengine : inp.engine = "Presto".toList)
    (hid : ¬ inp.anime_id > 0) (hcnt : ¬ counter < 5) :
    (GetTitleFromBrowser IsEqual Settings counter inp).1 ≠ .out_of_range ∧
    (Spec.presto_search_fails IsEqual inp.children →
      (GetTitleFromBrowser IsEqual Settings counter inp).1 = .returned []) := by
  have heq := GetTitleFromBrowser.discovery_eq IsEqual Settings counter inp hid hcnt
    kWebEnginePresto (Or.inr (Or.inr (Or.inr ⟨hengine, rfl⟩)))
  have hfind : GetTitleFromBrowser.find_url IsEqual kWebEnginePresto inp.children
      = GetTitleFromBrowser.find_url_presto IsEqual inp.children := rfl
  rw [heq, hfind]
  constructor
  · have hin := GetTitleFromBrowser.find_url_presto_in_range IsEqual inp.children
    cases hf : GetTitleFromBrowser.find_url_presto IsEqual inp.children with
    | out_of_range => exact absurd hf hin
    | returned child => cases child <;> simp
  · intro h
    rw [GetTitleFromBrowser.find_url_presto_fails IsEqual inp.children h]

/-- Witness for C4 (amended): the client's first child has no "tool bar" beneath
it, and the result is empty. -/
theorem GetTitleFromBrowser_presto_search_fails_witness :
    (GetTitleFromBrowser IsEqualAscii Example.all_enabled 5
        (Example.presto Example.client_without_tool_bar)).1 = .returned [] :=
  (GetTitleFromBrowser_presto_search_fails IsEqualAscii Example.all_enabled 5
    (Example.presto Example.client_without_tool_bar) rfl (by decide) (by decide)).2
    (Or.inr ⟨_, _, _, rfl, rfl, Or.inl rfl⟩)

/-! ## Provider detection -/

theorem GetTitleFromStreamingMediaProvider.stream_provider_eq_spec
    (Settings : StreamSettings) (url : WString) :
    GetTitleFromStreamingMediaProvider.stream_provider Settings url
      = Spec.select_provider Settings url := by
  unfold GetTitleFromStreamingMediaProvider.stream_provider Spec.select_provider
    Spec.provider_table
  simp only [InStr_found_iff, List.find?_cons, List.find?_nil]
  cases url with
  | nil =>
    have h : ∀ (a : Char) (l : WString), ¬ (a :: l) <:+: [] := by
      intro a l h
      simpa using List.eq_nil_of_infix_nil h
    simp [h]
  | cons c cs =>
    simp only [List.isEmpty_cons, Bool.not_false, if_true]
    by_cases h1 : (Settings.kStream_Ann &&
        decide ("animenewsnetwork.com/video".toList <:+: c :: cs)) = true
    · simp only [h1, if_true]
    simp only [h1, if_false, Bool.false_eq_true]
    by_cases h2 : (Settings.kStream_Crunchyroll &&
        decide ("crunchyroll.com/".toList <:+: c :: cs)) = true
    · simp only [h2, if_true]
    simp only [h2, if_false, Bool.false_eq_true]
    by_cases h3 : (Settings.kStream_Veoh && decide ("veoh.com/watch".toList <:+: c :: cs)) = true
    · simp only [h3, if_true]
    simp only [h3, if_false, Bool.false_eq_true]
    by_cases h4 : (Settings.kStream_Viz && decide ("vizanime.com/ep".toList <:+: c :: cs)) = true
    · simp only [h4, if_true]
    simp only [h4, if_false, Bool.false_eq_true]
    by_cases h5 : (Settings.kStream_Youtube &&
        decide ("youtube.com/watch".toList <:+: c :: cs)) = true
    · simp only [h5, if_true]
    simp only [h5, if_false, Bool.false_eq_true]

theorem GetTitleFromStreamingMediaProvider.clean_up_unknown (title : WString) :
    GetTitleFromStreamingMediaProvider.clean_up kStreamUnknown title = [] := by
  rfl

/-- C5: for every url, title and flag assignment, the provider whose clean-up
`GetTitleFromStreamingMediaProvider` applies is the first entry of the fixed
table AnimeNewsNetwork, Crunchyroll, Veoh, VizAnime, YouTube whose flag is true
and whose required substring occurs anywhere in `url`; later entries are
ignored. -/
theorem GetTitleFromStreamingMediaProvider_first_enabled_match
    (Settings : StreamSettings) (url title : WString) :
    GetTitleFromStreamingMediaProvider.stream_provider Settings url
        = Spec.select_provider Settings url ∧
    GetTitleFromStreamingMediaProvider Settings url title
        = GetTitleFromStreamingMediaProvider.clean_up (Spec.select_provider Settings url) title := by
  refine ⟨GetTitleFromStreamingMediaProvider.stream_provider_eq_spec Settings url, ?_⟩
  rw [GetTitleFromStreamingMediaProvider,
    GetTitleFromStreamingMediaProvider.stream_provider_eq_spec]

/-- The example of C5: a url with both "animenewsnetwork.com/video" and
"youtube.com/watch" is cleaned with the AnimeNewsNetwork rules when both are
enabled, and with the YouTube rules once AnimeNewsNetwork is disabled. -/
theorem GetTitleFromStreamingMediaProvider_both_match_example :
    GetTitleFromStreamingMediaProvider.stream_provider Example.all_enabled
        "http://animenewsnetwork.com/video?from=youtube.com/watch".toList = kStreamAnn ∧
    GetTitleFromStreamingMediaProvider Example.all_enabled
        "http://animenewsnetwork.com/video?from=youtube.com/watch".toList
        "Show - YouTube - Anime News Network".toList = "Show - YouTube".toList ∧
    GetTitleFromStreamingMediaProvider.stream_provider
        { Example.all_enabled with kStream_Ann := false }
        "http://animenewsnetwork.com/video?from=youtube.com/watch".toList = kStreamYoutube ∧
    GetTitleFromStreamingMediaProvider { Example.all_enabled with kStream_Ann := false }
        "http://animenewsnetwork.com/video?from=youtube.com/watch".toList
        "Show - Anime News Network - YouTube".toList = "Show - Anime News Network".toList := by
  decide

/-- C6: for every url, raw title and flag assignment, if no entry of the table
is enabled with its required substring occurring in `url`, the result is empty;
and the Hulu clean-up is never selected. -/
theorem GetTitleFromStreamingMediaProvider_no_match_empty
    (Settings : StreamSettings) (url title : WString)
    (h : ∀ e ∈ Spec.provider_table Settings, e.2.1 = true → ¬ e.2.2 <:+: url) :
    GetTitleFromStreamingMediaProvider Settings url title = [] ∧
    GetTitleFromStreamingMediaProvider.stream_provider Settings url ≠ kStreamHulu := by
  have hsel : Spec.select_provider Settings url = kStreamUnknown := by
    have hnone : (Spec.provider_table Settings).find?
        (fun e => e.2.1 && decide (e.2.2 <:+: url)) = none := by
      rw [List.find?_eq_none]
      intro e he
      have := h e he
      simp only [Bool.and_eq_true, decide_eq_true_eq, not_and]
      exact this
    rw [Spec.select_provider, hnone]
  rw [GetTitleFromStreamingMediaProvider,
    GetTitleFromStreamingMediaProvider.stream_provider_eq_spec, hsel]
  exact ⟨rfl, by decide⟩

/-- Witness for C6: a url with "hulu.com/watch" and none of the five required
substrings yields the empty string with every provider enabled. -/
theorem GetTitleFromStreamingMediaProvider_no_match_empty_witness :
    GetTitleFromStreamingMediaProvider Example.all_enabled
        "http://www.hulu.com/watch/123".toList "Watch My Show online | Free | Hulu".toList = [] ∧
    GetTitleFromStreamingMediaProvider.stream_provider Example.all_enabled
        "http://www.hulu.com/watch/123".toList ≠ kStreamHulu :=
  GetTitleFromStreamingMediaProvider_no_match_empty Example.all_enabled
    "http://www.hulu.com/watch/123".toList "Watch My Show online | Free | Hulu".toList
    (by
      intro e he
      simp only [Spec.provider_table, List.mem_cons, List.mem_singleton, List.not_mem_nil,
        or_false] at he
      rcases he with rfl | rfl | rfl | rfl | rfl <;> intro _ <;>
        rw [← InStr_found_iff] <;> decide)

/-- The other two instances C6 names: an empty url, and a url that only matches
a provider whose flag is false. -/
theorem GetTitleFromStreamingMediaProvider_no_match_examples :
    GetTitleFromStreamingMediaProvider Example.all_enabled [] "Any title".toList = [] ∧
    GetTitleFromStreamingMediaProvider { Example.all_enabled with kStream_Crunchyroll := false }
        "https://www.crunchyroll.com/my-show-ep-3".toList
        "Crunchyroll - Watch My Show Episode 3".toList = [] := by
  decide

/-! ## Strip rules -/

theorem Spec.apply_rule_length_le (rule : Spec.StripKind × WString) (title : WString) :
    (Spec.apply_rule rule title).length ≤ title.length := by
  obtain ⟨kind, lit⟩ := rule
  cases kind
  · exact EraseLeft_length_le title lit
  · exact EraseRight_length_le title lit
  · exact Erase_length_le title lit

theorem Spec.apply_rule_length_lt (rule : Spec.StripKind × WString) (title : WString)
    (hne : rule.2 ≠ []) (h : Spec.rule_applies rule title) :
    (Spec.apply_rule rule title).length < title.length := by
  obtain ⟨kind, lit⟩ := rule
  cases kind
  · exact EraseLeft_length_lt title lit hne h
  · exact EraseRight_length_lt title lit hne h
  · exact Erase_length_lt title lit hne h

theorem Spec.apply_rule_idle (rule : Spec.StripKind × WString) (title : WString)
    (h : ¬ Spec.rule_applies rule title) : Spec.apply_rule rule title = title := by
  obtain ⟨kind, lit⟩ := rule
  cases kind
  · exact EraseLeft_unanchored title lit h
  · exact EraseRight_unanchored title lit h
  · exact Erase_absent title lit h

theorem Spec.apply_rules_length_le : ∀ (rules : List (Spec.StripKind × WString))
    (title : WString), (Spec.apply_rules rules title).length ≤ title.length
  | [], _ => Nat.le_refl _
  | rule :: rules, title =>
    Nat.le_trans (Spec.apply_rules_length_le rules (Spec.apply_rule rule title))
      (Spec.apply_rule_length_le rule title)

/-- A list of rules with nonempty literals leaves a title as it is exactly when
none of the rules applies to it. -/
theorem Spec.apply_rules_eq_self_iff : ∀ (rules : List (Spec.StripKind × WString))
    (title : WString), (∀ r ∈ rules, r.2 ≠ []) →
    (Spec.apply_rules rules title = title ↔ ∀ r ∈ rules, ¬ Spec.rule_applies r title)
  | [], _, _ => by simp [Spec.apply_rules]
  | rule :: rules, title, hne => by
    have hne' : ∀ r ∈ rules, r.2 ≠ [] := fun r hr => hne r (List.mem_cons_of_mem _ hr)
    rw [Spec.apply_rules, List.forall_mem_cons]
    by_cases h : Spec.rule_applies rule title
    · have hlt := Spec.apply_rule_length_lt rule title (hne rule (List.mem_cons_self _ _)) h
      have hle := Spec.apply_rules_length_le rules (Spec.apply_rule rule title)
      constructor
      · intro heq
        rw [heq] at hle
        omega
      · intro hno
        exact absurd h hno.1
    · rw [Spec.apply_rule_idle rule title h, Spec.apply_rules_eq_self_iff rules title hne']
      constructor
      · intro hno; exact ⟨h, hno⟩
      · intro hno; exact hno.2

theorem Spec.strip_rules_nonempty (provider : Int) :
    ∀ r ∈ Spec.strip_rules provider, r.2 ≠ [] := by
  intro r hr
  unfold Spec.strip_rules at hr
  split at hr
  · simp only [List.mem_cons, List.mem_singleton, List.not_mem_nil, or_false] at hr
    rcases hr with rfl | rfl | rfl <;> decide
  split at hr
  · simp only [List.mem_singleton] at hr
    subst hr; decide
  split at hr
  · simp only [List.mem_cons, List.mem_singleton, List.not_mem_nil, or_false] at hr
    rcases hr with rfl | rfl <;> decide
  split at hr
  · simp only [List.mem_singleton] at hr
    subst hr; decide
  split at hr
  · simp only [List.mem_singleton] at hr
    subst hr; decide
  · cases hr

/-- For the five providers of the table the `switch` of the clean-up applies the
rules of the table in table order. -/
theorem GetTitleFromStreamingMediaProvider.clean_up_eq_rules (provider : Int) (title : WString)
    (hp : provider = kStreamAnn ∨ provider = kStreamCrunchyroll ∨ provider = kStreamVeoh ∨
      provider = kStreamVizanime ∨ provider = kStreamYoutube) :
    GetTitleFromStreamingMediaProvider.clean_up provider title
      = Spec.apply_rules (Spec.strip_rules provider) title := by
  rcases hp with rfl | rfl | rfl | rfl | rfl <;> rfl

/-- The detection only ever yields one of the five providers of the table or
`kStreamUnknown`. -/
theorem GetTitleFromStreamingMediaProvider.stream_provider_range
    (Settings : StreamSettings) (url : WString) :
    GetTitleFromStreamingMediaProvider.stream_provider Settings url = kStreamUnknown ∨
      GetTitleFromStreamingMediaProvider.stream_provider Settings url = kStreamAnn ∨
      GetTitleFromStreamingMediaProvider.stream_provider Settings url = kStreamCrunchyroll ∨
      GetTitleFromStreamingMediaProvider.stream_provider Settings url = kStreamVeoh ∨
      GetTitleFromStreamingMediaProvider.stream_provider Settings url = kStreamVizanime ∨
      GetTitleFromStreamingMediaProvider.stream_provider Settings url = kStreamYoutube := by
  unfold GetTitleFromStreamingMediaProvider.stream_provider
  split
  · split
    · exact Or.inr (Or.inl rfl)
    split
    · exact Or.inr (Or.inr (Or.inl rfl))
    split
    · exact Or.inr (Or.inr (Or.inr (Or.inl rfl)))
    split
    · exact Or.inr (Or.inr (Or.inr (Or.inr (Or.inl rfl))))
    split
    · exact Or.inr (Or.inr (Or.inr (Or.inr (Or.inr rfl))))
    · exact Or.inl rfl
  · exact Or.inl rfl

/-- C7: when the selected provider is Crunchyroll, Veoh, VizAnime or YouTube, the
result is the raw title after that provider's strip rules in table order:
Crunchyroll prefix "Crunchyroll - Watch "; Veoh prefix "Watch Videos Online | "
then suffix " | Veoh.com"; VizAnime suffix
" - VIZ ANIME: Free Online Anime - All The Time"; YouTube suffix " - YouTube".
A prefix rule removes the literal from a title that starts with it and leaves
any other title alone; a suffix rule does so for a title that ends with it. -/
theorem GetTitleFromStreamingMediaProvider_anchored_rules
    (Settings : StreamSettings) (url title : WString) (provider : Int)
    (hsel : GetTitleFromStreamingMediaProvider.stream_provider Settings url = provider)
    (hanchored : provider = kStreamCrunchyroll ∨ provider = kStreamVeoh ∨
      provider = kStreamVizanime ∨ provider = kStreamYoutube) :
    GetTitleFromStreamingMediaProvider Settings url title
        = Spec.apply_rules (Spec.strip_rules provider) title ∧
    Spec.strip_rules kStreamCrunchyroll = [(.leading, "Crunchyroll - Watch ".toList)] ∧
    Spec.strip_rules kStreamVeoh
        = [(.leading, "Watch Videos Online | ".toList), (.trailing, " | Veoh.com".toList)] ∧
    Spec.strip_rules kStreamVizanime
        = [(.trailing, " - VIZ ANIME: Free Online Anime - All The Time".toList)] ∧
    Spec.strip_rules kStreamYoutube = [(.trailing, " - YouTube".toList)] ∧
    (∀ lit rest : WString, Spec.apply_rule (.leading, lit) (lit ++ rest) = rest) ∧
    (∀ lit s : WString, ¬ lit <+: s → Spec.apply_rule (.leading, lit) s = s) ∧
    (∀ lit rest : WString, Spec.apply_rule (.trailing, lit) (rest ++ lit) = rest) ∧
    (∀ lit s : WString, ¬ lit <:+ s → Spec.apply_rule (.trailing, lit) s = s) := by
  refine ⟨?_, rfl, rfl, rfl, rfl, fun lit rest => EraseLeft_anchored lit rest,
    fun lit s h => EraseLeft_unanchored s lit h, fun lit rest => EraseRight_anchored lit rest,
    fun lit s h => EraseRight_unanchored s lit h⟩
  rw [GetTitleFromStreamingMediaProvider, hsel]
  exact GetTitleFromStreamingMediaProvider.clean_up_eq_rules provider title
    (Or.inr hanchored)

/-- Witness for C7 on the spec's example: the Crunchyroll url and the title
"Crunchyroll - Watch My Show Episode 3" give "My Show Episode 3". -/
theorem GetTitleFromStreamingMediaProvider_anchored_rules_witness :
    GetTitleFromStreamingMediaProvider Example.all_enabled
        "https://www.crunchyroll.com/my-show-ep-3".toList
        "Crunchyroll - Watch My Show Episode 3".toList = "My Show Episode 3".toList :=
  (GetTitleFromStreamingMediaProvider_anchored_rules Example.all_enabled
    "https://www.crunchyroll.com/my-show-ep-3".toList
    "Crunchyroll - Watch My Show Episode 3".toList kStreamCrunchyroll
    (by decide) (Or.inl rfl)).1.trans (by decide)

/-! ## Idempotence of the clean-up -/

/-- C8 (counterexample): with Crunchyroll selected and the raw title
"Crunchyroll - Watch Crunchyroll - Watch X", one clean-up gives
"Crunchyroll - Watch X" and a second one gives "X". -/
theorem GetTitleFromStreamingMediaProvider_not_idempotent :
    GetTitleFromStreamingMediaProvider Example.all_enabled
        "https://www.crunchyroll.com/x".toList
        "Crunchyroll - Watch Crunchyroll - Watch X".toList = "Crunchyroll - Watch X".toList ∧
    GetTitleFromStreamingMediaProvider Example.all_enabled
        "https://www.crunchyroll.com/x".toList
        (GetTitleFromStreamingMediaProvider Example.all_enabled
          "https://www.crunchyroll.com/x".toList
          "Crunchyroll - Watch Crunchyroll - Watch X".toList) = "X".toList ∧
    GetTitleFromStreamingMediaProvider Example.all_enabled
        "https://www.crunchyroll.com/x".toList
        (GetTitleFromStreamingMediaProvider Example.all_enabled
          "https://www.crunchyroll.com/x".toList
          "Crunchyroll - Watch Crunchyroll - Watch X".toList)
      ≠ GetTitleFromStreamingMediaProvider Example.all_enabled
          "https://www.crunchyroll.com/x".toList
          "Crunchyroll - Watch Crunchyroll - Watch X".toList := by
  decide

/-- C8 (amended): for every url, raw title and flag assignment, cleaning the
once-cleaned title again gives the once-cleaned title exactly when no strip rule
of the selected provider applies to the once-cleaned title: it does not start
with a prefix literal of the provider, does not end with a suffix literal, and
for AnimeNewsNetwork contains neither " (s)" nor " (d)".  With no provider
selected there is no rule and both results are empty. -/
theorem GetTitleFromStreamingMediaProvider_idempotent_iff
    (Settings : StreamSettings) (url title : WString) :
    GetTitleFromStreamingMediaProvider Settings url
        (GetTitleFromStreamingMediaProvider Settings url title)
      = GetTitleFromStreamingMediaProvider Settings url title
    ↔ ∀ r ∈ Spec.strip_rules (GetTitleFromStreamingMediaProvider.stream_provider Settings url),
        ¬ Spec.rule_applies r (GetTitleFromStreamingMediaProvider Settings url title) := by
  simp only [GetTitleFromStreamingMediaProvider]
  rcases GetTitleFromStreamingMediaProvider.stream_provider_range Settings url with
    h | h | h | h | h | h
  · rw [h]
    have hr : Spec.strip_rules kStreamUnknown = [] := rfl
    simp [hr, GetTitleFromStreamingMediaProvider.clean_up_unknown]
  all_goals
    rw [h, GetTitleFromStreamingMediaProvider.clean_up_eq_rules _ title (by simp),
      GetTitleFromStreamingMediaProvider.clean_up_eq_rules _ _ (by simp)]
    exact Spec.apply_rules_eq_self_iff _ _ (Spec.strip_rules_nonempty _)

/-- An instance on which the clean-up is idempotent: "Crunchyroll - Watch My
Show Episode 3" gives "My Show Episode 3", which no Crunchyroll rule applies to. -/
theorem GetTitleFromStreamingMediaProvider_idempotent_example :
    GetTitleFromStreamingMediaProvider Example.all_enabled
        "https://www.crunchyroll.com/my-show-ep-3".toList
        (GetTitleFromStreamingMediaProvider Example.all_enabled
          "https://www.crunchyroll.com/my-show-ep-3".toList
          "Crunchyroll - Watch My Show Episode 3".toList)
      = GetTitleFromStreamingMediaProvider Example.all_enabled
          "https://www.crunchyroll.com/my-show-ep-3".toList
          "Crunchyroll - Watch My Show Episode 3".toList := by
  decide

/-! ## Unknown engine -/

/-- C9 (counterexample): the engine is none of WebKit, Gecko, Trident, Presto,
and the result is the tracked title, not the empty string: the same-page early
return answers before the engine is looked at, whatever the counter. -/
theorem GetTitleFromBrowser_unknown_engine_nonempty :
    Example.unknown_engine.engine ≠ "WebKit".toList ∧
    Example.unknown_engine.engine ≠ "Gecko".toList ∧
    Example.unknown_engine.engine ≠ "Trident".toList ∧
    Example.unknown_engine.engine ≠ "Presto".toList ∧
    (GetTitleFromBrowser IsEqualAscii Example.all_enabled 5 Example.unknown_engine).1
      = .returned "My Show - Episode 3".toList ∧
    (GetTitleFromBrowser IsEqualAscii Example.all_enabled 5 Example.unknown_engine).1
      ≠ .returned [] := by
  decide

/-- C9 (amended): when the engine is none of WebKit, Gecko, Trident, Presto, the
result is empty for every tree whenever the call is answered neither by the
same-page early return nor by the throttle; a call answered by one of these two
returns the tracked title. -/
theorem GetTitleFromBrowser_unknown_engine (IsEqual : WString → WString → Bool)
    (Settings : StreamSettings) (counter : Int) (inp : BrowserInput)
    (hw : inp.engine ≠ "WebKit".toList) (hg : inp.engine ≠ "Gecko".toList)
    (ht : inp.engine ≠ "Trident".toList) (hp : inp.engine ≠ "Presto".toList) :
    (¬ (inp.anime_id > 0 ∧ InStr inp.title inp.current_title > -1) → ¬ counter < 5 →
        GetTitleFromBrowser IsEqual Settings counter inp = (.returned [], 0)) ∧
    ((inp.anime_id > 0 ∧ InStr inp.title inp.current_title > -1) ∨ counter < 5 →
        (GetTitleFromBrowser IsEqual Settings counter inp).1 = .returned inp.current_title) := by
  unfold GetTitleFromBrowser
  constructor
  · intro hearly hcnt
    simp only [hearly, hcnt, hw, hg, ht, hp, if_false]
  · intro h
    by_cases hearly : inp.anime_id > 0 ∧ InStr inp.title inp.current_title > -1
    · simp only [hearly, and_self, if_true]
    · have hcnt : counter < 5 := h.resolve_left hearly
      simp only [hearly, hcnt, if_false, if_true]

/-- Witness for C9 (amended): an unknown engine, no episode tracked, the
throttle passed. -/
theorem GetTitleFromBrowser_unknown_engine_witness :
    GetTitleFromBrowser IsEqualAscii Example.all_enabled 5
        { Example.discovery with engine := "Blink".toList } = (.returned [], 0) :=
  (GetTitleFromBrowser_unknown_engine IsEqualAscii Example.all_enabled 5
    { Example.discovery with engine := "Blink".toList }
    (by decide) (by decide) (by decide) (by decide)).1 (by decide) (by decide)

/-! ## The throttle counter -/

/-- C10 (counterexample): six invocations with identical inputs, starting from
the initial counter `0`: the first five return the (empty) tracked title, the
sixth returns "My Show Episode 3".  The first and the sixth invocation differ
although their inputs are the same. -/
theorem GetTitleFromBrowser_depends_on_counter :
    GetTitleFromBrowser.calls IsEqualAscii Example.all_enabled 0
        (List.replicate 6 Example.discovery)
      = [.returned [], .returned [], .returned [], .returned [], .returned [],
         .returned "My Show Episode 3".toList] ∧
    (GetTitleFromBrowser IsEqualAscii Example.all_enabled 0 Example.discovery).1
      ≠ (GetTitleFromBrowser IsEqualAscii Example.all_enabled 5 Example.discovery).1 := by
  decide

/-- C10 (amended): the throttle counter is the only state the resolver retains,
and the returned string depends on it only through the test `counter < 5`: two
invocations with identical inputs return the same string whenever their counters
are on the same side of the throttle, and a call answered by the same-page early
return does not depend on the counter at all. -/
theorem GetTitleFromBrowser_same_side_of_throttle (IsEqual : WString → WString → Bool)
    (Settings : StreamSettings) (inp : BrowserInput) (counter₁ counter₂ : Int)
    (hside : counter₁ < 5 ↔ counter₂ < 5) :
    (GetTitleFromBrowser IsEqual Settings counter₁ inp).1
        = (GetTitleFromBrowser IsEqual Settings counter₂ inp).1 ∧
    ((inp.anime_id > 0 ∧ InStr inp.title inp.current_title > -1) →
      ∀ counter : Int, (GetTitleFromBrowser IsEqual Settings counter inp).1
        = .returned inp.current_title) := by
  constructor
  · unfold GetTitleFromBrowser
    by_cases hearly : inp.anime_id > 0 ∧ InStr inp.title inp.current_title > -1
    · simp only [hearly, and_self, if_true]
    · by_cases h1 : counter₁ < 5
      · have h2 : counter₂ < 5 := hside.mp h1
        simp only [hearly, h1, h2, if_false, if_true]
      · have h2 : ¬ counter₂ < 5 := fun h => h1 (hside.mpr h)
        simp only [hearly, h1, h2, if_false]
  · intro hearly counter
    unfold GetTitleFromBrowser
    simp only [hearly, and_self, if_true]

/-- Witness for C10 (amended): the first and the fourth call of a run, counters
`0` and `3`, both below the throttle limit. -/
theorem GetTitleFromBrowser_same_side_of_throttle_witness :
    (GetTitleFromBrowser IsEqualAscii Example.all_enabled 0 Example.discovery).1
      = (GetTitleFromBrowser IsEqualAscii Example.all_enabled 3 Example.discovery).1 :=
  (GetTitleFromBrowser_same_side_of_throttle IsEqualAscii Example.all_enabled
    Example.discovery 0 3 (by decide)).1

/-! ## The AnimeNewsNetwork rules -/

theorem Erase.scan_skip (str2 : WString) : ∀ (str1 : WString) (skip : Nat),
    Erase.scan str2 skip str1 = Erase.scan str2 0 (str1.drop skip)
  | [], skip => by cases skip <;> simp [Erase.scan]
  | _ :: _, 0 => by simp
  | c :: cs, skip + 1 => by
    rw [Erase.scan, Erase.scan_skip str2 cs skip, List.drop_succ_cons]

/-- The scan of `Erase` removes an occurrence at the head and goes on behind
it. -/
theorem Erase.scan_head (str2 rest : WString) (hne : str2 ≠ []) :
    Erase.scan str2 0 (str2 ++ rest) = Erase.scan str2 0 rest := by
  cases str2 with
  | nil => exact absurd rfl hne
  | cons a lit =>
    have hp : (a :: lit).isPrefixOf (a :: (lit ++ rest)) = true :=
      List.isPrefixOf_iff_prefix.mpr ⟨rest, rfl⟩
    rw [List.cons_append, Erase.scan, if_pos hp, Erase.scan_skip]
    simp

/-- The scan of `Erase` keeps the text in front of the first occurrence of the
literal, removes that occurrence and goes on behind it. -/
theorem Erase.scan_first_occurrence (str2 : WString) (hne : str2 ≠ []) :
    ∀ (front rest : WString),
    (∀ i < front.length, ¬ str2 <+: (front ++ str2 ++ rest).drop i) →
    Erase.scan str2 0 (front ++ str2 ++ rest) = front ++ Erase.scan str2 0 rest
  | [], rest, _ => by
    rw [List.nil_append, List.nil_append]
    exact Erase.scan_head str2 rest hne
  | c :: front, rest, h => by
    have h0 : ¬ str2 <+: c :: (front ++ str2 ++ rest) := by
      have := h 0 (by simp)
      simpa using this
    have hp : ¬ str2.isPrefixOf (c :: (front ++ str2 ++ rest)) = true :=
      fun hq => h0 (List.isPrefixOf_iff_prefix.mp hq)
    have ih := Erase.scan_first_occurrence str2 hne front rest (by
      intro i hi
      have := h (i + 1) (by simp only [List.length_cons]; omega)
      simpa using this)
    rw [List.cons_append, List.cons_append, Erase.scan, if_neg hp, ih, List.cons_append]

theorem Erase_first_occurrence (str2 front rest : WString) (hne : str2 ≠ [])
    (h : ∀ i < front.length, ¬ str2 <+: (front ++ str2 ++ rest).drop i) :
    Erase (front ++ str2 ++ rest) str2 = front ++ Erase rest str2 := by
  have h2 : ¬ str2.isEmpty = true := by simpa using hne
  unfold Erase
  rw [if_neg h2, if_neg h2]
  exact Erase.scan_first_occurrence str2 hne front rest h

/-- C11: when AnimeNewsNetwork is the selected provider, the result is the raw
title after (1) the removal of " - Anime News Network" from a title that ends
with it, then (2) the deletion of " (s)" and (3) the deletion of " (d)" wherever
they occur: the erasure leaves a title without the literal alone, and in a title
with the literal it keeps what stands in front of the first occurrence, removes
the occurrence and goes on behind it. -/
theorem GetTitleFromStreamingMediaProvider_ann_rules
    (Settings : StreamSettings) (url title : WString)
    (hsel : GetTitleFromStreamingMediaProvider.stream_provider Settings url = kStreamAnn) :
    GetTitleFromStreamingMediaProvider Settings url title
        = Spec.apply_rules (Spec.strip_rules kStreamAnn) title ∧
    Spec.strip_rules kStreamAnn
        = [(.trailing, " - Anime News Network".toList), (.anywhere, " (s)".toList),
           (.anywhere, " (d)".toList)] ∧
    (∀ lit rest : WString, Spec.apply_rule (.trailing, lit) (rest ++ lit) = rest) ∧
    (∀ lit s : WString, ¬ lit <:+ s → Spec.apply_rule (.trailing, lit) s = s) ∧
    (∀ lit s : WString, ¬ lit <:+: s → Spec.apply_rule (.anywhere, lit) s = s) ∧
    (∀ lit front rest : WString, lit ≠ [] →
      (∀ i < front.length, ¬ lit <+: (front ++ lit ++ rest).drop i) →
      Spec.apply_rule (.anywhere, lit) (front ++ lit ++ rest)
        = front ++ Spec.apply_rule (.anywhere, lit) rest) := by
  refine ⟨?_, rfl, fun lit rest => EraseRight_anchored lit rest,
    fun lit s h => EraseRight_unanchored s lit h, fun lit s h => Erase_absent s lit h,
    fun lit front rest hne h => Erase_first_occurrence lit front rest hne h⟩
  rw [GetTitleFromStreamingMediaProvider, hsel]
  rfl

/-- Witness for C11 on the claim's example: the interior " (s)" and the final
" - Anime News Network" are both removed. -/
theorem GetTitleFromStreamingMediaProvider_ann_rules_witness :
    GetTitleFromStreamingMediaProvider Example.all_enabled
        "http://www.animenewsnetwork.com/video/1".toList
        "Show (s) Episode 1 - Anime News Network".toList = "Show Episode 1".toList :=
  (GetTitleFromStreamingMediaProvider_ann_rules Example.all_enabled
    "http://www.animenewsnetwork.com/video/1".toList
    "Show (s) Episode 1 - Anime News Network".toList (by decide)).1.trans (by decide)

/-! ## Position-exact rules -/

/-- C12: with Veoh selected, a raw title that neither starts with
"Watch Videos Online | " nor ends with " | Veoh.com" is returned unchanged,
wherever else those literals occur in it. -/
theorem GetTitleFromStreamingMediaProvider_veoh_unchanged
    (Settings : StreamSettings) (url title : WString)
    (hsel : GetTitleFromStreamingMediaProvider.stream_provider Settings url = kStreamVeoh)
    (hstart : ¬ "Watch Videos Online | ".toList <+: title)
    (hend : ¬ " | Veoh.com".toList <:+ title) :
    GetTitleFromStreamingMediaProvider Settings url title = title := by
  rw [GetTitleFromStreamingMediaProvider, hsel]
  have h : GetTitleFromStreamingMediaProvider.clean_up kStreamVeoh title
      = EraseRight (EraseLeft title "Watch Videos Online | ".toList) " | Veoh.com".toList := rfl
  rw [h, EraseLeft_unanchored title _ hstart, EraseRight_unanchored title _ hend]

/-- Witness for C12 on the spec's example: the prefix literal occurs in the
interior of the title only, and the title comes back unchanged. -/
theorem GetTitleFromStreamingMediaProvider_veoh_unchanged_witness :
    "Watch Videos Online | ".toList
        <:+: "Watch My Show Online | Watch Videos Online | Free".toList ∧
    GetTitleFromStreamingMediaProvider Example.all_enabled
        "http://www.veoh.com/watch/v123".toList
        "Watch My Show Online | Watch Videos Online | Free".toList
      = "Watch My Show Online | Watch Videos Online | Free".toList :=
  ⟨⟨"Watch My Show Online | ".toList, "Free".toList, by decide⟩,
    GetTitleFromStreamingMediaProvider_veoh_unchanged Example.all_enabled
      "http://www.veoh.com/watch/v123".toList
      "Watch My Show Online | Watch Videos Online | Free".toList (by decide)
      (fun h => absurd (List.isPrefixOf_iff_prefix.mpr h) (by decide))
      (fun h => absurd (List.isSuffixOf_iff_suffix.mpr h) (by decide))⟩

/-! ## Tree search: wildcard probe and absence -/

/-- C13: with both `name` and `role` empty, `FindAccessibleChild` returns the
first top-level node of the forest, which is the first node in pre-order, and
`nullptr` exactly when the forest is empty. -/
theorem FindAccessibleChild_wildcard (IsEqual : WString → WString → Bool)
    (children : List AccessibleChild) :
    FindAccessibleChild IsEqual children [] [] = children.head? ∧
    FindAccessibleChild IsEqual children [] [] = (preorder children).head? ∧
    (FindAccessibleChild IsEqual children [] [] = none ↔ children = []) := by
  cases children with
  | nil => simp [FindAccessibleChild, preorder]
  | cons it rest =>
    obtain ⟨n, r, v, cs⟩ := it
    simp [FindAccessibleChild, FindAccessibleChild.iteration, preorder, preorder.tree]

/-- C14: if no node anywhere in the forest satisfies the match rule for
`(name, role)`, `FindAccessibleChild` returns `nullptr`; and a result that is
not `nullptr` is a node of the forest that satisfies the match rule. -/
theorem FindAccessibleChild_absent_or_match (IsEqual : WString → WString → Bool)
    (children : List AccessibleChild) (name role : WString) :
    ((∀ c ∈ preorder children, MatchRule IsEqual name role c = false) →
      FindAccessibleChild IsEqual children name role = none) ∧
    (∀ c, FindAccessibleChild IsEqual children name role = some c →
      c ∈ preorder children ∧ MatchRule IsEqual name role c = true) := by
  rw [FindAccessibleChild.eq_find]
  constructor
  · intro h
    rw [List.find?_eq_none]
    intro c hc
    simp [h c hc]
  · intro c hc
    exact ⟨List.mem_of_find?_eq_some hc, List.find?_some hc⟩

/-- Witness for C14: a forest of depth three without any node of role
"menu bar". -/
theorem FindAccessibleChild_absent_or_match_witness :
    FindAccessibleChild IsEqualAscii Example.tabs_open [] "menu bar".toList = none :=
  (FindAccessibleChild_absent_or_match IsEqualAscii Example.tabs_open [] "menu bar".toList).1
    (by decide)

/-! ## The clean-up only deletes -/

theorem EraseLeft_tail (str1 str2 : WString) : EraseLeft str1 str2 <:+ str1 := by
  unfold EraseLeft
  split
  · exact List.drop_suffix _ _
  · exact List.suffix_refl _

theorem EraseRight_head (str1 str2 : WString) : EraseRight str1 str2 <+: str1 := by
  unfold EraseRight
  split
  · exact List.take_prefix _ _
  · exact List.prefix_refl _

theorem Erase.scan_sublist (str2 : WString) : ∀ (str1 : WString) (skip : Nat),
    List.Sublist (Erase.scan str2 skip str1) str1
  | [], skip => by cases skip <;> simp [Erase.scan]
  | c :: cs, 0 => by
    rw [Erase.scan]
    split
    · exact (Erase.scan_sublist str2 cs (str2.length - 1)).cons c
    · exact (Erase.scan_sublist str2 cs 0).cons₂ c
  | c :: cs, skip + 1 => by
    rw [Erase.scan]
    exact (Erase.scan_sublist str2 cs skip).cons c

theorem Erase_sublist (str1 str2 : WString) : List.Sublist (Erase str1 str2) str1 := by
  unfold Erase
  split
  · exact List.Sublist.refl _
  · exact Erase.scan_sublist str2 str1 0

theorem Spec.apply_rule_sublist (rule : Spec.StripKind × WString) (title : WString) :
    List.Sublist (Spec.apply_rule rule title) title := by
  obtain ⟨kind, lit⟩ := rule
  cases kind
  · exact (EraseLeft_tail title lit).sublist
  · exact (EraseRight_head title lit).sublist
  · exact Erase_sublist title lit

theorem Spec.apply_rules_sublist : ∀ (rules : List (Spec.StripKind × WString))
    (title : WString), List.Sublist (Spec.apply_rules rules title) title
  | [], _ => List.Sublist.refl _
  | rule :: rules, title =>
    (Spec.apply_rules_sublist rules (Spec.apply_rule rule title)).trans
      (Spec.apply_rule_sublist rule title)

/-- A list of anchored rules cuts a contiguous piece out of the title. -/
theorem Spec.apply_rules_contiguous : ∀ (rules : List (Spec.StripKind × WString))
    (title : WString), (∀ r ∈ rules, r.1 ≠ .anywhere) →
    Spec.apply_rules rules title <:+: title
  | [], _, _ => List.infix_refl _
  | rule :: rules, title, h => by
    have ih := Spec.apply_rules_contiguous rules (Spec.apply_rule rule title)
      (fun r hr => h r (List.mem_cons_of_mem _ hr))
    have h1 : Spec.apply_rule rule title <:+: title := by
      have hk := h rule (List.mem_cons_self _ _)
      obtain ⟨kind, lit⟩ := rule
      cases kind
      · exact (EraseLeft_tail title lit).isInfix
      · exact (EraseRight_head title lit).isInfix
      · exact absurd rfl hk
    exact List.IsInfix.trans ih h1

/-- C18: `GetTitleFromStreamingMediaProvider` only ever deletes characters: for
every url, raw title and flag assignment the result is a subsequence of the raw
title and never longer than it, and when the selected provider is Crunchyroll,
Veoh, VizAnime or YouTube it is a contiguous substring of the raw title. -/
theorem GetTitleFromStreamingMediaProvider_only_deletes
    (Settings : StreamSettings) (url title : WString) :
    List.Sublist (GetTitleFromStreamingMediaProvider Settings url title) title ∧
    (GetTitleFromStreamingMediaProvider Settings url title).length ≤ title.length ∧
    (GetTitleFromStreamingMediaProvider.stream_provider Settings url = kStreamCrunchyroll ∨
      GetTitleFromStreamingMediaProvider.stream_provider Settings url = kStreamVeoh ∨
      GetTitleFromStreamingMediaProvider.stream_provider Settings url = kStreamVizanime ∨
      GetTitleFromStreamingMediaProvider.stream_provider Settings url = kStreamYoutube →
      GetTitleFromStreamingMediaProvider Settings url title <:+: title) := by
  have hsub : List.Sublist (GetTitleFromStreamingMediaProvider Settings url title) title := by
    rw [GetTitleFromStreamingMediaProvider]
    rcases GetTitleFromStreamingMediaProvider.stream_provider_range Settings url with
      h | h | h | h | h | h
    · rw [h, GetTitleFromStreamingMediaProvider.clean_up_unknown]
      exact List.nil_sublist _
    all_goals
      rw [h, GetTitleFromStreamingMediaProvider.clean_up_eq_rules _ title (by simp)]
      exact Spec.apply_rules_sublist _ _
  refine ⟨hsub, hsub.length_le, fun hp => ?_⟩
  rw [GetTitleFromStreamingMediaProvider]
  rcases hp with h | h | h | h <;>
    rw [h, GetTitleFromStreamingMediaProvider.clean_up_eq_rules _ title (by simp)] <;>
    refine Spec.apply_rules_contiguous _ _ (fun r hr => ?_) <;>
    simp only [Spec.strip_rules] at hr <;>
    revert r <;> decide

/-! ## `AllowChildTraverse` -/

/-- C20: `AllowChildTraverse(child, engine)` is false for every child when the
engine is Unknown and true for every child when it is WebKit; under Gecko it is
false exactly when the role equals "document", under Trident exactly when the
role equals "pane" or "scroll bar", under Presto exactly when the role equals
"document" or "pane" (under the comparison `IsEqual`); it is true for any other
engine value; and it depends only on the child's role and the engine. -/
theorem AllowChildTraverse_by_engine (IsEqual : WString → WString → Bool)
    (child : AccessibleChild) (param : Int) :
    (param = kWebEngineUnknown → AllowChildTraverse IsEqual child param = false) ∧
    (param = kWebEngineWebkit → AllowChildTraverse IsEqual child param = true) ∧
    (param = kWebEngineGecko →
      (AllowChildTraverse IsEqual child param = false
        ↔ IsEqual child.role "document".toList = true)) ∧
    (param = kWebEngineTrident →
      (AllowChildTraverse IsEqual child param = false
        ↔ IsEqual child.role "pane".toList = true ∨
          IsEqual child.role "scroll bar".toList = true)) ∧
    (param = kWebEnginePresto →
      (AllowChildTraverse IsEqual child param = false
        ↔ IsEqual child.role "document".toList = true ∨
          IsEqual child.role "pane".toList = true)) ∧
    (param ≠ kWebEngineUnknown → param ≠ kWebEngineWebkit → param ≠ kWebEngineGecko →
      param ≠ kWebEngineTrident → param ≠ kWebEnginePresto →
      AllowChildTraverse IsEqual child param = true) ∧
    (∀ other : AccessibleChild, other.role = child.role →
      AllowChildTraverse IsEqual other param = AllowChildTraverse IsEqual child param) := by
  refine ⟨?_, ?_, ?_, ?_, ?_, ?_, ?_⟩
  · rintro rfl
    rfl
  · rintro rfl
    rfl
  · rintro rfl
    have h0 : ¬ kWebEngineGecko = kWebEngineUnknown := by decide
    simp only [AllowChildTraverse, h0, if_false, if_true]
    cases IsEqual child.role "document".toList <;> simp
  · rintro rfl
    have h0 : ¬ kWebEngineTrident = kWebEngineUnknown := by decide
    have h1 : ¬ kWebEngineTrident = kWebEngineGecko := by decide
    simp only [AllowChildTraverse, h0, h1, if_false, if_true]
    cases IsEqual child.role "pane".toList <;>
      cases IsEqual child.role "scroll bar".toList <;> simp
  · rintro rfl
    have h0 : ¬ kWebEnginePresto = kWebEngineUnknown := by decide
    have h1 : ¬ kWebEnginePresto = kWebEngineGecko := by decide
    have h2 : ¬ kWebEnginePresto = kWebEngineTrident := by decide
    simp only [AllowChildTraverse, h0, h1, h2, if_false, if_true]
    cases IsEqual child.role "document".toList <;>
      cases IsEqual child.role "pane".toList <;> simp
  · intro h0 _ h1 h2 h3
    simp only [AllowChildTraverse, h0, h1, h2, h3, if_false]
  · intro other h
    simp only [AllowChildTraverse, h]

/-- Witness for C20: a "Document" node is not traversed under Gecko and under
Presto, and is traversed under WebKit, Trident and an engine value outside the
enumeration; no node is traversed under the Unknown engine. -/
theorem AllowChildTraverse_by_engine_witness :
    AllowChildTraverse IsEqualAscii (.mk "Page".toList "Document".toList [] []) kWebEngineGecko
      = false ∧
    AllowChildTraverse IsEqualAscii (.mk "Page".toList "Document".toList [] []) kWebEnginePresto
      = false ∧
    AllowChildTraverse IsEqualAscii (.mk "Page".toList "Document".toList [] []) kWebEngineWebkit
      = true ∧
    AllowChildTraverse IsEqualAscii (.mk "Page".toList "Document".toList [] []) 7 = true ∧
    AllowChildTraverse IsEqualAscii (.mk "Page".toList "Document".toList [] []) kWebEngineUnknown
      = false :=
  ⟨((AllowChildTraverse_by_engine IsEqualAscii (.mk "Page".toList "Document".toList [] [])
      kWebEngineGecko).2.2.1 rfl).mpr (by decide),
    ((AllowChildTraverse_by_engine IsEqualAscii (.mk "Page".toList "Document".toList [] [])
      kWebEnginePresto).2.2.2.2.1 rfl).mpr (Or.inl (by decide)),
    (AllowChildTraverse_by_engine IsEqualAscii (.mk "Page".toList "Document".toList [] [])
      kWebEngineWebkit).2.1 rfl,
    (AllowChildTraverse_by_engine IsEqualAscii (.mk "Page".toList "Document".toList [] [])
      7).2.2.2.2.2.1 (by decide) (by decide) (by decide) (by decide) (by decide),
    (AllowChildTraverse_by_engine IsEqualAscii (.mk "Page".toList "Document".toList [] [])
      kWebEngineUnknown).1 rfl⟩

/-! ## Session-confirm mode does not read values or settings -/

theorem Spec.erase_values_any (p : WString → Bool) : ∀ cs : List AccessibleChild,
    (Spec.erase_values cs).any (fun it => p it.name) = cs.any (fun it => p it.name)
  | [] => rfl
  | .mk n r v cs' :: rest => by
    rw [Spec.erase_values, List.any_cons, List.any_cons, Spec.erase_values_any p rest]
    rfl

mutual
theorem FindAccessibleChild.iteration_erase_values (IsEqual : WString → WString → Bool)
    (name role : WString) : ∀ c : AccessibleChild,
    FindAccessibleChild.iteration IsEqual (Spec.erase_values.tree c) name role
      = (FindAccessibleChild.iteration IsEqual c name role).map Spec.erase_values.tree
  | .mk n r v cs => by
    have ih := FindAccessibleChild.erase_values IsEqual name role cs
    simp only [Spec.erase_values.tree, FindAccessibleChild.iteration]
    by_cases h1 : (name.isEmpty || IsEqual name n) = true <;>
      by_cases h2 : (role.isEmpty || IsEqual role r) = true
    · simp [h1, h2, Spec.erase_values.tree]
    all_goals
      cases cs with
      | nil => simp [h1, h2, Spec.erase_values]
      | cons c cs' =>
        simp only [h1, h2, Spec.erase_values, if_false, if_true, Option.isNone_none,
          List.isEmpty_cons, Bool.not_false, Bool.and_self, Bool.false_eq_true]
        simpa only [Spec.erase_values] using ih
theorem FindAccessibleChild.erase_values (IsEqual : WString → WString → Bool)
    (name role : WString) : ∀ children : List AccessibleChild,
    FindAccessibleChild IsEqual (Spec.erase_values children) name role
      = (FindAccessibleChild IsEqual children name role).map Spec.erase_values.tree
  | [] => rfl
  | it :: rest => by
    have ih1 := FindAccessibleChild.iteration_erase_values IsEqual name role it
    have ih2 := FindAccessibleChild.erase_values IsEqual name role rest
    simp only [Spec.erase_values, FindAccessibleChild, ih1, ih2]
    cases FindAccessibleChild.iteration IsEqual it name role <;> simp
end

/-- The block "Check other tabs" gives the same result on a forest and on the
forest with all values emptied. -/
theorem GetTitleFromBrowser.check_other_tabs_erase_values (IsEqual : WString → WString → Bool)
    (web_engine : Int) (children : List AccessibleChild) (current_title : WString) :
    GetTitleFromBrowser.check_other_tabs IsEqual web_engine (Spec.erase_values children)
        current_title
      = GetTitleFromBrowser.check_other_tabs IsEqual web_engine children current_title := by
  have hany : ∀ c : AccessibleChild,
      (Spec.erase_values.tree c).children.any
          (fun it => decide (InStr it.name current_title > -1))
        = c.children.any (fun it => decide (InStr it.name current_title > -1)) := by
    rintro ⟨n, r, v, cs⟩
    exact Spec.erase_values_any (fun s => decide (InStr s current_title > -1)) cs
  unfold GetTitleFromBrowser.check_other_tabs
  simp only [FindAccessibleChild.erase_values]
  split_ifs <;>
    first
    | rfl
    | (cases FindAccessibleChild IsEqual children _ _ with
       | none => rfl
       | some c => simp only [Option.map_some', hany])

theorem GetTitleFromBrowser.check_other_tabs_range (IsEqual : WString → WString → Bool)
    (web_engine : Int) (children : List AccessibleChild) (current_title : WString) :
    GetTitleFromBrowser.check_other_tabs IsEqual web_engine children current_title
        = current_title ∨
      GetTitleFromBrowser.check_other_tabs IsEqual web_engine children current_title = [] := by
  have h : ∀ child : Option AccessibleChild,
      (match child with
        | some c =>
          if c.children.any (fun it => decide (InStr it.name current_title > -1)) then
            current_title
          else []
        | none => []) = current_title ∨
      (match child with
        | some c =>
          if c.children.any (fun it => decide (InStr it.name current_title > -1)) then
            current_title
          else []
        | none => []) = [] := by
    intro child
    cases child with
    | none => exact Or.inr rfl
    | some c =>
      by_cases hc : c.children.any (fun it => decide (InStr it.name current_title > -1)) = true
      · exact Or.inl (if_pos hc)
      · exact Or.inr (if_neg hc)
  exact h _

/-- C15: with an episode tracked, the call does not read any `value` field nor
any provider flag: for every engine, tracked title and counter the outcome is
the same for two forests that differ only in their nodes' `value` fields and
under any two flag assignments, and the result is always the tracked title or
the empty string. -/
theorem GetTitleFromBrowser_session_ignores_values (IsEqual : WString → WString → Bool)
    (Settings₁ Settings₂ : StreamSettings) (counter : Int) (inp : BrowserInput)
    (children₁ children₂ : List AccessibleChild)
    (hid : inp.anime_id > 0)
    (hvalues : Spec.erase_values children₁ = Spec.erase_values children₂) :
    GetTitleFromBrowser IsEqual Settings₁ counter { inp with children := children₁ }
        = GetTitleFromBrowser IsEqual Settings₂ counter { inp with children := children₂ } ∧
    ((GetTitleFromBrowser IsEqual Settings₁ counter { inp with children := children₁ }).1
        = .returned inp.current_title ∨
      (GetTitleFromBrowser IsEqual Settings₁ counter { inp with children := children₁ }).1
        = .returned []) := by
  have hsame : ∀ web_engine : Int,
      GetTitleFromBrowser.check_other_tabs IsEqual web_engine children₁ inp.current_title
        = GetTitleFromBrowser.check_other_tabs IsEqual web_engine children₂
            inp.current_title := by
    intro web_engine
    rw [← GetTitleFromBrowser.check_other_tabs_erase_values IsEqual web_engine children₁,
      hvalues, GetTitleFromBrowser.check_other_tabs_erase_values]
  have hrange : ∀ web_engine : Int,
      Outcome.returned
          (GetTitleFromBrowser.check_other_tabs IsEqual web_engine children₁ inp.current_title)
        = Outcome.returned inp.current_title ∨
      Outcome.returned
          (GetTitleFromBrowser.check_other_tabs IsEqual web_engine children₁ inp.current_title)
        = Outcome.returned [] := by
    intro web_engine
    rcases GetTitleFromBrowser.check_other_tabs_range IsEqual web_engine children₁
      inp.current_title with h | h
    · exact Or.inl (congrArg _ h)
    · exact Or.inr (congrArg _ h)
  unfold GetTitleFromBrowser GetTitleFromBrowser.inspect
  simp only [hid, if_true, true_and]
  by_cases hearly : InStr inp.title inp.current_title > -1
  · simp only [hearly, if_true]
    exact ⟨trivial, Or.inl trivial⟩
  simp only [hearly, if_false]
  by_cases hcnt : counter < 5
  · simp only [hcnt, if_true]
    exact ⟨trivial, Or.inl trivial⟩
  simp only [hcnt, if_false]
  by_cases hw : inp.engine = "WebKit".toList
  · simp only [hw, if_true, hsame]
    exact ⟨trivial, hsame _ ▸ hrange _⟩
  simp only [hw, if_false]
  by_cases hg : inp.engine = "Gecko".toList
  · simp only [hg, if_true, hsame]
    exact ⟨trivial, hsame _ ▸ hrange _⟩
  simp only [hg, if_false]
  by_cases ht : inp.engine = "Trident".toList
  · simp only [ht, if_true, hsame]
    exact ⟨trivial, hsame _ ▸ hrange _⟩
  simp only [ht, if_false]
  by_cases hp : inp.engine = "Presto".toList
  · simp only [hp, if_true, hsame]
    exact ⟨trivial, hsame _ ▸ hrange _⟩
  simp only [hp, if_false]
  exact ⟨trivial, Or.inr trivial⟩

/-- Witness for C15: the tab window of the examples with two different sets of
`value` fields, once with all providers enabled and once with none. -/
theorem GetTitleFromBrowser_session_ignores_values_witness :
    GetTitleFromBrowser IsEqualAscii Example.all_enabled 5 (Example.session Example.tabs_open)
      = GetTitleFromBrowser IsEqualAscii Example.none_enabled 5
          (Example.session Example.tabs_open_other_values) :=
  (GetTitleFromBrowser_session_ignores_values IsEqualAscii Example.all_enabled
    Example.none_enabled 5 (Example.session []) Example.tabs_open
    Example.tabs_open_other_values (by decide) rfl).1

/-! ## The tab-container probes -/

/-- The block "Check other tabs" is the spec's session-confirm outcome for the
probe the `switch` uses. -/
theorem GetTitleFromBrowser.check_other_tabs_eq_spec (IsEqual : WString → WString → Bool)
    (web_engine : Int) (children : List AccessibleChild) (current_title : WString)
    (probe : WString × WString)
    (hchild : (if web_engine = kWebEngineWebkit ∨ web_engine = kWebEngineGecko then
        FindAccessibleChild IsEqual children [] "page tab list".toList
      else if web_engine = kWebEngineTrident then
        FindAccessibleChild IsEqual children "Tab Row".toList []
      else if web_engine = kWebEnginePresto then
        FindAccessibleChild IsEqual children [] "client".toList
      else none) = FindAccessibleChild IsEqual children probe.1 probe.2) :
    GetTitleFromBrowser.check_other_tabs IsEqual web_engine children current_title
      = Spec.session_confirm IsEqual probe children current_title := by
  have hdec : ∀ s : WString,
      decide (InStr s current_title > -1) = decide (current_title <:+: s) :=
    fun s => decide_eq_decide.mpr (InStr_found_iff s current_title)
  unfold GetTitleFromBrowser.check_other_tabs Spec.session_confirm
  simp only [hchild, hdec]

/-- C16: the tab-container probes are `("", "page tab list")` for WebKit and for
Gecko, `("Tab Row", "")` for Trident and `("", "client")` for Presto: in
session-confirm mode the result is the spec's session-confirm outcome for the
engine's probe; so with an episode tracked the outcome under WebKit equals the
outcome under Gecko for every tree and every tracked title. -/
theorem GetTitleFromBrowser_tab_container_probes (IsEqual : WString → WString → Bool)
    (Settings : StreamSettings) (counter : Int) (inp : BrowserInput)
    (hid : inp.anime_id > 0) :
    Spec.tab_container_probe "WebKit".toList = some ([], "page tab list".toList) ∧
    Spec.tab_container_probe "Gecko".toList = some ([], "page tab list".toList) ∧
    Spec.tab_container_probe "Trident".toList = some ("Tab Row".toList, []) ∧
    Spec.tab_container_probe "Presto".toList = some ([], "client".toList) ∧
    (∀ probe, Spec.tab_container_probe inp.engine = some probe →
      ¬ InStr inp.title inp.current_title > -1 → ¬ counter < 5 →
      (GetTitleFromBrowser IsEqual Settings counter inp).1
        = .returned (Spec.session_confirm IsEqual probe inp.children inp.current_title)) ∧
    GetTitleFromBrowser IsEqual Settings counter { inp with engine := "WebKit".toList }
      = GetTitleFromBrowser IsEqual Settings counter { inp with engine := "Gecko".toList } := by
  refine ⟨by decide, by decide, by decide, by decide, ?_, ?_⟩
  · intro probe hprobe hsame hcnt
    unfold GetTitleFromBrowser GetTitleFromBrowser.inspect
    unfold Spec.tab_container_probe at hprobe
    simp only [hsame, and_false, if_false, hcnt, hid, if_true]
    by_cases hw : inp.engine = "WebKit".toList
    · simp only [hw, true_or, if_true, Option.some.injEq] at hprobe ⊢
      subst hprobe
      exact congrArg _ (GetTitleFromBrowser.check_other_tabs_eq_spec IsEqual _ _ _ _ rfl)
    · simp only [hw, if_false, false_or] at hprobe ⊢
      by_cases hg : inp.engine = "Gecko".toList
      · simp only [hg, if_true, Option.some.injEq] at hprobe ⊢
        subst hprobe
        exact congrArg _ (GetTitleFromBrowser.check_other_tabs_eq_spec IsEqual _ _ _ _ rfl)
      · simp only [hg, if_false] at hprobe ⊢
        by_cases ht : inp.engine = "Trident".toList
        · simp only [ht, if_true, Option.some.injEq] at hprobe ⊢
          subst hprobe
          exact congrArg _ (GetTitleFromBrowser.check_other_tabs_eq_spec IsEqual _ _ _ _ rfl)
        · simp only [ht, if_false] at hprobe ⊢
          by_cases hp : inp.engine = "Presto".toList
          · simp only [hp, if_true, Option.some.injEq] at hprobe ⊢
            subst hprobe
            exact congrArg _ (GetTitleFromBrowser.check_other_tabs_eq_spec IsEqual _ _ _ _ rfl)
          · simp only [hp, if_false] at hprobe
            cases hprobe
  · have hgw : ¬ ("Gecko".toList = "WebKit".toList) := by decide
    have hprobes : GetTitleFromBrowser.check_other_tabs IsEqual kWebEngineWebkit inp.children
          inp.current_title
        = GetTitleFromBrowser.check_other_tabs IsEqual kWebEngineGecko inp.children
          inp.current_title := rfl
    unfold GetTitleFromBrowser GetTitleFromBrowser.inspect
    simp only [hid, if_true, hgw, if_false, hprobes]

/-- Witness for C16: the tab window of the examples gives the tracked title under
WebKit and under Gecko alike. -/
theorem GetTitleFromBrowser_tab_container_probes_witness :
    GetTitleFromBrowser IsEqualAscii Example.all_enabled 5
        { Example.session Example.tabs_open with engine := "WebKit".toList }
      = GetTitleFromBrowser IsEqualAscii Example.all_enabled 5
        { Example.session Example.tabs_open with engine := "Gecko".toList } ∧
    GetTitleFromBrowser IsEqualAscii Example.all_enabled 5
        { Example.session Example.tabs_open with engine := "Gecko".toList }
      = (.returned "My Show - Episode 3".toList, 0) :=
  ⟨(GetTitleFromBrowser_tab_container_probes IsEqualAscii Example.all_enabled 5
      (Example.session Example.tabs_open) (by decide)).2.2.2.2.2, by decide⟩

/-! ## The node the Presto descent forwards -/

/-- The value of `child` behind the Presto descent, case by case: the last node
the descent located, or `nullptr` when a search step found nothing. -/
theorem GetTitleFromBrowser.find_url_presto_cases (IsEqual : WString → WString → Bool)
    (children : List AccessibleChild) :
    (∀ client, FindAccessibleChild IsEqual children [] "client".toList = some client →
      client.children = [] →
      GetTitleFromBrowser.find_url_presto IsEqual children = .returned (some client)) ∧
    (∀ client first rest tool_bar,
      FindAccessibleChild IsEqual children [] "client".toList = some client →
      client.children = first :: rest →
      FindAccessibleChild IsEqual first.children [] "tool bar".toList = some tool_bar →
      (tool_bar.children = [] →
        GetTitleFromBrowser.find_url_presto IsEqual children = .returned (some tool_bar)) ∧
      (∀ combo_box, tool_bar.children ≠ [] →
        FindAccessibleChild IsEqual tool_bar.children [] "combo box".toList = some combo_box →
        (combo_box.children = [] →
          GetTitleFromBrowser.find_url_presto IsEqual children
            = .returned (some combo_box)) ∧
        (combo_box.children ≠ [] →
          GetTitleFromBrowser.find_url_presto IsEqual children
            = .returned (FindAccessibleChild IsEqual combo_box.children []
                "editable text".toList)))) := by
  constructor
  · intro client hc hcs
    unfold GetTitleFromBrowser.find_url_presto
    simp only [hc, hcs, List.isEmpty_nil, Bool.not_true, Bool.false_eq_true, if_false]
  · intro client first rest tool_bar hc hcs htb
    constructor
    · intro htbc
      unfold GetTitleFromBrowser.find_url_presto
      simp only [hc, hcs, vector_at, List.isEmpty_cons, Bool.not_false, if_true,
        List.getElem?_cons_zero, htb, htbc, List.isEmpty_nil, Bool.not_true,
        Bool.false_eq_true, if_false]
    · intro combo_box htbc hcb
      have htbc' : (!tool_bar.children.isEmpty) = true := by
        simpa [List.isEmpty_iff] using htbc
      constructor
      · intro hcbc
        unfold GetTitleFromBrowser.find_url_presto
        simp only [hc, hcs, vector_at, List.isEmpty_cons, Bool.not_false, if_true,
          List.getElem?_cons_zero, htb, htbc', hcb, hcbc, List.isEmpty_nil, Bool.not_true,
          Bool.false_eq_true, if_false]
      · intro hcbc
        have hcbc' : (!combo_box.children.isEmpty) = true := by
          simpa [List.isEmpty_iff] using hcbc
        unfold GetTitleFromBrowser.find_url_presto
        simp only [hc, hcs, vector_at, List.isEmpty_cons, Bool.not_false, if_true,
          List.getElem?_cons_zero, htb, htbc', hcb, hcbc']

/-- The descent ends with `nullptr` only when a search step found nothing. -/
theorem GetTitleFromBrowser.find_url_presto_null_iff (IsEqual : WString → WString → Bool)
    (children : List AccessibleChild) :
    GetTitleFromBrowser.find_url_presto IsEqual children = .returned none
      ↔ Spec.presto_search_fails IsEqual children := by
  refine ⟨fun h => ?_, GetTitleFromBrowser.find_url_presto_fails IsEqual children⟩
  obtain ⟨h1, h2⟩ := GetTitleFromBrowser.find_url_presto_cases IsEqual children
  unfold Spec.presto_search_fails
  cases hc : FindAccessibleChild IsEqual children [] "client".toList with
  | none => exact Or.inl rfl
  | some client =>
    right
    cases hcs : client.children with
    | nil =>
      rw [h1 client hc hcs] at h
      cases h
    | cons first rest =>
      refine ⟨client, first, rest, rfl, hcs, ?_⟩
      cases htb : FindAccessibleChild IsEqual first.children [] "tool bar".toList with
      | none => exact Or.inl rfl
      | some tool_bar =>
        right
        obtain ⟨h3, h4⟩ := h2 client first rest tool_bar hc hcs htb
        by_cases htbc : tool_bar.children = []
        · rw [h3 htbc] at h
          cases h
        · refine ⟨tool_bar, rfl, htbc, ?_⟩
          cases hcb : FindAccessibleChild IsEqual tool_bar.children [] "combo box".toList with
          | none => exact Or.inl rfl
          | some combo_box =>
            right
            obtain ⟨h5, h6⟩ := h4 combo_box htbc hcb
            by_cases hcbc : combo_box.children = []
            · rw [h5 hcbc] at h
              cases h
            · refine ⟨combo_box, rfl, hcbc, ?_⟩
              rw [h6 hcbc] at h
              exact Outcome.returned.inj h

/-- C17: in discovery mode with Presto (no episode tracked, the call gets behind
the throttle), the node whose `value` goes to the clean-up is the last node the
chained descent located: the "client" node when it has no children, the "tool
bar" node when it has no children, the "combo box" node when it has no children,
else the "editable text" node; `child` ends as `nullptr` exactly when a search
step itself finds nothing. -/
theorem GetTitleFromBrowser_presto_last_located (IsEqual : WString → WString → Bool)
    (Settings : StreamSettings) (counter : Int) (inp : BrowserInput)
    (hengine : inp.engine = "Presto".toList)
    (hid : ¬ inp.anime_id > 0) (hcnt : ¬ counter < 5) :
    (∀ client, FindAccessibleChild IsEqual inp.children [] "client".toList = some client →
      client.children = [] →
      (GetTitleFromBrowser IsEqual Settings counter inp).1
        = .returned (GetTitleFromStreamingMediaProvider Settings client.value inp.title)) ∧
    (∀ client first rest tool_bar,
      FindAccessibleChild IsEqual inp.children [] "client".toList = some client →
      client.children = first :: rest →
      FindAccessibleChild IsEqual first.children [] "tool bar".toList = some tool_bar →
      (tool_bar.children = [] →
        (GetTitleFromBrowser IsEqual Settings counter inp).1
          = .returned
              (GetTitleFromStreamingMediaProvider Settings tool_bar.value inp.title)) ∧
      (∀ combo_box, tool_bar.children ≠ [] →
        FindAccessibleChild IsEqual tool_bar.children [] "combo box".toList = some combo_box →
        (combo_box.children = [] →
          (GetTitleFromBrowser IsEqual Settings counter inp).1
            = .returned
                (GetTitleFromStreamingMediaProvider Settings combo_box.value inp.title)) ∧
        (∀ edit, combo_box.children ≠ [] →
          FindAccessibleChild IsEqual combo_box.children [] "editable text".toList
            = some edit →
          (GetTitleFromBrowser IsEqual Settings counter inp).1
            = .returned
                (GetTitleFromStreamingMediaProvider Settings edit.value inp.title)))) ∧
    (GetTitleFromBrowser.find_url_presto IsEqual inp.children = .returned none
      ↔ Spec.presto_search_fails IsEqual inp.children) := by
  have heq := GetTitleFromBrowser.discovery_eq IsEqual Settings counter inp hid hcnt
    kWebEnginePresto (Or.inr (Or.inr (Or.inr ⟨hengine, rfl⟩)))
  have hfind : GetTitleFromBrowser.find_url IsEqual kWebEnginePresto inp.children
      = GetTitleFromBrowser.find_url_presto IsEqual inp.children := rfl
  rw [hfind] at heq
  obtain ⟨h1, h2⟩ := GetTitleFromBrowser.find_url_presto_cases IsEqual inp.children
  refine ⟨?_, ?_, GetTitleFromBrowser.find_url_presto_null_iff IsEqual inp.children⟩
  · intro client hc hcs
    rw [heq, h1 client hc hcs]
  · intro client first rest tool_bar hc hcs htb
    obtain ⟨h3, h4⟩ := h2 client first rest tool_bar hc hcs htb
    constructor
    · intro htbc
      rw [heq, h3 htbc]
    · intro combo_box htbc hcb
      obtain ⟨h5, h6⟩ := h4 combo_box htbc hcb
      constructor
      · intro hcbc
        rw [heq, h5 hcbc]
      · intro edit hcbc he
        rw [heq, h6 hcbc, he]

/-- Witness for C17: a childless "client" node with a YouTube address as its
`value`: that value selects the provider and the result is "My Show". -/
theorem GetTitleFromBrowser_presto_last_located_witness :
    (GetTitleFromBrowser IsEqualAscii Example.all_enabled 5
        (Example.presto Example.childless_client)).1
      = .returned (GetTitleFromStreamingMediaProvider Example.all_enabled
          "https://www.youtube.com/watch?v=1".toList "My Show - YouTube".toList) :=
  (GetTitleFromBrowser_presto_last_located IsEqualAscii Example.all_enabled 5
    (Example.presto Example.childless_client) rfl (by decide) (by decide)).1
    (.mk [] "client".toList "https://www.youtube.com/watch?v=1".toList []) rfl rfl

/-! ## The throttle in a run of calls -/

/-- One call of `GetTitleFromBrowser`, by the three ways it can go at the early
return and at the throttle. -/
theorem GetTitleFromBrowser.step (IsEqual : WString → WString → Bool)
    (Settings : StreamSettings) (counter : Int) (inp : BrowserInput) :
    (GetTitleFromBrowser.reaches_throttle inp = false →
      GetTitleFromBrowser IsEqual Settings counter inp
        = (.returned inp.current_title, counter)) ∧
    (GetTitleFromBrowser.reaches_throttle inp = true → counter < 5 →
      GetTitleFromBrowser IsEqual Settings counter inp
        = (.returned inp.current_title, counter + 1)) ∧
    (GetTitleFromBrowser.reaches_throttle inp = true → ¬ counter < 5 →
      GetTitleFromBrowser IsEqual Settings counter inp
        = (GetTitleFromBrowser.behind_throttle IsEqual Settings inp, 0)) := by
  unfold GetTitleFromBrowser.reaches_throttle GetTitleFromBrowser
    GetTitleFromBrowser.behind_throttle
  by_cases hearly : inp.anime_id > 0 ∧ InStr inp.title inp.current_title > -1
  · have hb : (decide (inp.anime_id > 0) &&
        decide (InStr inp.title inp.current_title > -1)) = true := by
      simpa using hearly
    simp [hb, hearly]
  · have hb : (decide (inp.anime_id > 0) &&
        decide (InStr inp.title inp.current_title > -1)) = false := by
      simpa using hearly
    refine ⟨fun h => ?_, fun _ hcnt => ?_, fun _ hcnt => ?_⟩
    · simp [hb] at h
    · simp only [hearly, hcnt, if_false, if_true]
    · simp only [hearly, hcnt, if_false]
      split_ifs <;> rfl

/-- The counter after a run that starts with a counter `n ≤ 5`: `n` plus the
number of calls that reached the throttle, modulo six. -/
theorem GetTitleFromBrowser.counter_after_eq (IsEqual : WString → WString → Bool)
    (Settings : StreamSettings) : ∀ (inputs : List BrowserInput) (n : Nat), n ≤ 5 →
    GetTitleFromBrowser.counter_after IsEqual Settings (n : Int) inputs
      = (((n + (inputs.filter GetTitleFromBrowser.reaches_throttle).length) % 6 : Nat) : Int)
  | [], n, hn => by
    simp only [GetTitleFromBrowser.counter_after, List.filter_nil, List.length_nil,
      Nat.add_zero]
    congr 1
    omega
  | inp :: rest, n, hn => by
    obtain ⟨h1, h2, h3⟩ := GetTitleFromBrowser.step IsEqual Settings (n : Int) inp
    rw [GetTitleFromBrowser.counter_after]
    cases hr : GetTitleFromBrowser.reaches_throttle inp
    · rw [h1 hr, List.filter_cons_of_neg (by simp [hr])]
      exact GetTitleFromBrowser.counter_after_eq IsEqual Settings rest n hn
    · rw [List.filter_cons_of_pos (by simp [hr]), List.length_cons]
      by_cases hlt : n < 5
      · have hlt' : (n : Int) < 5 := by omega
        rw [h2 hr hlt']
        have ih := GetTitleFromBrowser.counter_after_eq IsEqual Settings rest (n + 1) (by omega)
        have hcast : ((n : Int) + 1) = ((n + 1 : Nat) : Int) := by omega
        simp only [hcast, ih]
        congr 2
        omega
      · have hlt' : ¬ (n : Int) < 5 := by omega
        rw [h3 hr hlt']
        have ih := GetTitleFromBrowser.counter_after_eq IsEqual Settings rest 0 (by omega)
        have hcast : (0 : Int) = ((0 : Nat) : Int) := rfl
        rw [hcast, ih]
        congr 1
        omega

/-- C19: starting from `0` the throttle counter is between `0` and `5` after
every call: it is the number of calls that reached the throttle, modulo six.  A
call answered by the same-page early return leaves the counter alone.  A call
that reaches the throttle with a counter below five returns the tracked title,
whatever the engine and the tree, and increments the counter; with the counter
at five it resets the counter to `0` and goes on to the engine selection and
the inspection of the tree.  So, of the calls that reach the throttle, exactly
every sixth one gets behind it. -/
theorem GetTitleFromBrowser_throttle (IsEqual : WString → WString → Bool)
    (Settings : StreamSettings) :
    (∀ inputs : List BrowserInput,
      0 ≤ GetTitleFromBrowser.counter_after IsEqual Settings 0 inputs ∧
      GetTitleFromBrowser.counter_after IsEqual Settings 0 inputs ≤ 5 ∧
      GetTitleFromBrowser.counter_after IsEqual Settings 0 inputs
        = (((inputs.filter GetTitleFromBrowser.reaches_throttle).length % 6 : Nat) : Int)) ∧
    (∀ (counter : Int) (inp : BrowserInput),
      GetTitleFromBrowser.reaches_throttle inp = false →
      GetTitleFromBrowser IsEqual Settings counter inp
        = (.returned inp.current_title, counter)) ∧
    (∀ (counter : Int) (inp : BrowserInput),
      GetTitleFromBrowser.reaches_throttle inp = true → counter < 5 →
      GetTitleFromBrowser IsEqual Settings counter inp
        = (.returned inp.current_title, counter + 1)) ∧
    (∀ (counter : Int) (inp : BrowserInput),
      GetTitleFromBrowser.reaches_throttle inp = true → ¬ counter < 5 →
      GetTitleFromBrowser IsEqual Settings counter inp
        = (GetTitleFromBrowser.behind_throttle IsEqual Settings inp, 0)) ∧
    (∀ (before : List BrowserInput) (inp : BrowserInput),
      GetTitleFromBrowser.reaches_throttle inp = true →
      ((before.filter GetTitleFromBrowser.reaches_throttle).length % 6 = 5 →
        GetTitleFromBrowser IsEqual Settings
            (GetTitleFromBrowser.counter_after IsEqual Settings 0 before) inp
          = (GetTitleFromBrowser.behind_throttle IsEqual Settings inp, 0)) ∧
      ((before.filter GetTitleFromBrowser.reaches_throttle).length % 6 ≠ 5 →
        GetTitleFromBrowser IsEqual Settings
            (GetTitleFromBrowser.counter_after IsEqual Settings 0 before) inp
          = (.returned inp.current_title,
              GetTitleFromBrowser.counter_after IsEqual Settings 0 before + 1))) := by
  have hcount : ∀ inputs : List BrowserInput,
      GetTitleFromBrowser.counter_after IsEqual Settings 0 inputs
        = (((inputs.filter GetTitleFromBrowser.reaches_throttle).length % 6 : Nat) : Int) := by
    intro inputs
    have h := GetTitleFromBrowser.counter_after_eq IsEqual Settings inputs 0 (by omega)
    simpa using h
  refine ⟨fun inputs => ?_, fun counter inp => (GetTitleFromBrowser.step IsEqual Settings
      counter inp).1, fun counter inp => (GetTitleFromBrowser.step IsEqual Settings
      counter inp).2.1, fun counter inp => (GetTitleFromBrowser.step IsEqual Settings
      counter inp).2.2, fun before inp hr => ?_⟩
  · have h := hcount inputs
    refine ⟨?_, ?_, h⟩ <;> omega
  · obtain ⟨_, h2, h3⟩ := GetTitleFromBrowser.step IsEqual Settings
      (GetTitleFromBrowser.counter_after IsEqual Settings 0 before) inp
    have h := hcount before
    constructor
    · intro h5
      exact h3 hr (by omega)
    · intro h5
      exact h2 hr (by omega)

/-- Witness for C19: a run of six identical calls that all reach the throttle:
the counter is back at `0`, and the call that follows five such calls is the one
that goes on to the engine selection. -/
theorem GetTitleFromBrowser_throttle_witness :
    GetTitleFromBrowser.counter_after IsEqualAscii Example.all_enabled 0
        (List.replicate 6 Example.discovery) = 0 ∧
    GetTitleFromBrowser IsEqualAscii Example.all_enabled
        (GetTitleFromBrowser.counter_after IsEqualAscii Example.all_enabled 0
          (List.replicate 5 Example.discovery)) Example.discovery
      = (GetTitleFromBrowser.behind_throttle IsEqualAscii Example.all_enabled
          Example.discovery, 0) :=
  ⟨((GetTitleFromBrowser_throttle IsEqualAscii Example.all_enabled).1
      (List.replicate 6 Example.discovery)).2.2.trans (by decide),
    ((GetTitleFromBrowser_throttle IsEqualAscii Example.all_enabled).2.2.2.2
      (List.replicate 5 Example.discovery) Example.discovery (by decide)).1 (by decide)⟩
